import Mathlib

/-!
Verification development for the chinook-explorer data pipeline
(`modeling.py` and `analytics.py`).

Tables are shallowly embedded: a `DataFrame` is a list of column names
together with a list of rows, each row a list of cell values.  Cell
values (`Val`) are null, rational numbers (modeling pandas numerics),
strings, or dates.  Timestamps are modeled at day granularity (the
Chinook invoice timestamps carry a zero time-of-day); `pd.to_datetime`'s
interpretation of raw numbers as nanosecond epochs is not modeled — a
numeric cell coerces to null, like any other unparsable value.
Fallible operations (pandas `KeyError` / `ValueError`) return `Except`.
-/

/-- A cell value of a table. -/
inductive Val where
  | null : Val
  | num (q : ℚ) : Val
  | str (s : String) : Val
  | date (y m d : ℕ) : Val
  | sqrtOf (q : ℚ) : Val
deriving DecidableEq, Repr

/-- A rectangular table: column names plus rows of cells. -/
structure DataFrame where
  cols : List String
  rows : List (List Val)
deriving DecidableEq, Repr

def emptyDF : DataFrame := ⟨[], []⟩

/-- Cell of `row` in column `c`, given the column layout `cols`
(first matching column, null when absent) — models `df[c]` access
for a single row. -/
def getVal : List String → List Val → String → Val
  | [], _, _ => Val.null
  | _ :: _, [], _ => Val.null
  | c2 :: cs, v :: vs, c => if c2 = c then v else getVal cs vs c

/-- The column `c` of a frame as a list of cells (models `df[c]`). -/
def DataFrame.colVals (df : DataFrame) (c : String) : List Val :=
  df.rows.map (fun r => getVal df.cols r c)

/-- Column assignment `df[c] = vals` (overwrites an existing column,
appends a new one otherwise). -/
def setCol (df : DataFrame) (c : String) (vals : List Val) : DataFrame :=
  let newCols := if c ∈ df.cols then df.cols else df.cols ++ [c]
  { cols := newCols,
    rows := df.rows.zipWith
      (fun r v => newCols.map (fun c2 => if c2 = c then v else getVal df.cols r c2)) vals }

/-- Column projection `df[cs]`, silently dropping requested columns
that are absent (as `sales_line_items` does). -/
def selectCols (df : DataFrame) (cs : List String) : DataFrame :=
  let keep := cs.filter (fun c => decide (c ∈ df.cols))
  { cols := keep, rows := df.rows.map (fun r => keep.map (fun c => getVal df.cols r c)) }

/-- Remove from `row` the cell at the first occurrence of column `c`. -/
def dropCol : List String → List Val → String → List Val
  | [], row, _ => row
  | _ :: _, [], _ => []
  | c2 :: cs, v :: vs, c => if c2 = c then vs else v :: dropCol cs vs c

/-- Error taxonomy of the pipeline (`KeyError` / `ValueError` sites). -/
inductive ModelError where
  | missingTables (ts : List String)
  | missingColumns (cs : List String)
  | missingColumn (c : String)
  | valueError (s : String)
deriving DecidableEq, Repr

/-- The message carried by each raised error, as built in the source. -/
def ModelError.render : ModelError → String
  | .missingTables ts => "Missing required tables: " ++ String.intercalate ", " ts
  | .missingColumns cs => "Missing required columns in sales_df: " ++ String.intercalate ", " cs
  | .missingColumn c => "Required column " ++ c ++ " is missing."
  | .valueError s => s

/-- `left.merge(right, on=k, how="left", suffixes=(sufL, sufR))`:
every left row is kept and collects the right rows with an equal key
(no match ⇒ null-filled right cells).  pandas merge factorizes NaN
keys to one shared code, so a null left key matches the null-keyed
right rows.  Collided non-key column names are suffixed per side.  A
missing key column raises `KeyError`. -/
def mergeDF (l r : DataFrame) (k : String) (sufL sufR : String) :
    Except ModelError DataFrame :=
  if k ∈ l.cols ∧ k ∈ r.cols then
    let rKeep := r.cols.erase k
    let lOut := l.cols.map (fun c => if c ∈ rKeep then c ++ sufL else c)
    let rOut := rKeep.map (fun c => if c ∈ l.cols then c ++ sufR else c)
    .ok { cols := lOut ++ rOut,
          rows := l.rows.flatMap (fun lr =>
            let lk := getVal l.cols lr k
            let ms := r.rows.filter (fun rr => decide (getVal r.cols rr k = lk))
            if ms.isEmpty then [lr ++ List.replicate rKeep.length Val.null]
            else ms.map (fun rr => lr ++ dropCol r.cols rr k)) }
  else .error (.missingColumn k)

/-- `left.merge(right, left_on=lk, right_on=rk, how="left", suffixes=("", suf))`
(used by `customers_dim`): both key columns are retained in the output. -/
def mergeLR (l r : DataFrame) (lk rk suf : String) : Except ModelError DataFrame :=
  if lk ∈ l.cols ∧ rk ∈ r.cols then
    let rOut := r.cols.map (fun c => if c ∈ l.cols then c ++ suf else c)
    .ok { cols := l.cols ++ rOut,
          rows := l.rows.flatMap (fun lr =>
            let lkv := getVal l.cols lr lk
            let ms := r.rows.filter (fun rr => decide (getVal r.cols rr rk = lkv))
            if ms.isEmpty then [lr ++ List.replicate r.cols.length Val.null]
            else ms.map (fun rr => lr ++ rr)) }
  else .error (.missingColumn (if lk ∈ l.cols then rk else lk))

/-! ### Calendar arithmetic (feature engineering on `InvoiceDate`) -/

def isLeap (y : ℕ) : Bool := (y % 4 == 0 && y % 100 != 0) || y % 400 == 0

def daysInMonth (y m : ℕ) : ℕ :=
  if m = 2 then (if isLeap y then 29 else 28)
  else if m = 4 ∨ m = 6 ∨ m = 9 ∨ m = 11 then 30 else 31

/-- Serial day number of a civil date (Gregorian), for day differences
and weekday computation. -/
def dayNumber (y m d : ℕ) : ℕ :=
  let y2 := if m ≤ 2 then y - 1 else y
  let era := y2 / 400
  let yoe := y2 % 400
  let mp := if m ≤ 2 then m + 9 else m - 3
  let doy := (153 * mp + 2) / 5 + (d - 1)
  let doe := yoe * 365 + yoe / 4 - yoe / 100 + doy
  era * 146097 + doe

/-- Weekday index, Monday = 0 … Sunday = 6. -/
def weekdayIdx (y m d : ℕ) : ℕ := (dayNumber y m d + 2) % 7

def dayNameOf (y m d : ℕ) : String :=
  ["Monday", "Tuesday", "Wednesday", "Thursday", "Friday", "Saturday", "Sunday"].getD
    (weekdayIdx y m d) ""

def dayOfYear (y m d : ℕ) : ℕ :=
  ((List.range (m - 1)).map (fun i => daysInMonth y (i + 1))).sum + d

def isoWeeksInYear (y : ℕ) : ℕ :=
  let p := fun (yy : ℕ) => (yy + yy / 4 - yy / 100 + yy / 400) % 7
  if p y = 4 ∨ p (y - 1) = 3 then 53 else 52

/-- ISO-8601 week number (`dt.isocalendar().week`). -/
def isoWeek (y m d : ℕ) : ℕ :=
  let wd := weekdayIdx y m d + 1
  let w := (dayOfYear y m d + 10 - wd) / 7
  if w = 0 then isoWeeksInYear (y - 1)
  else if w = 53 ∧ isoWeeksInYear y = 52 then 1 else w

/-- Parse a `"YYYY-MM-DD[ hh:mm:ss]"` timestamp at day granularity. -/
def parseDate (s : String) : Option (ℕ × ℕ × ℕ) :=
  match (s.splitOn " ").headD "" |>.splitOn "-" with
  | [ys, ms, ds] =>
    match ys.toNat?, ms.toNat?, ds.toNat? with
    | some y, some m, some d =>
      if 1 ≤ m ∧ m ≤ 12 ∧ 1 ≤ d ∧ d ≤ daysInMonth y m then some (y, m, d) else none
    | _, _, _ => none
  | _ => none

/-- `pd.to_datetime(v, errors="coerce")` on one cell: dates pass
through, parsable strings become dates, everything else becomes null. -/
def toDatetime (v : Val) : Val :=
  match v with
  | .date y m d => .date y m d
  | .str s => match parseDate s with
    | some (y, m, d) => .date y m d
    | none => .null
  | _ => .null

/-- Elementwise product of two cells (`df[a] * df[b]`); null (NaN)
propagates, non-numeric combinations are modeled as null. -/
def valMul (a b : Val) : Val :=
  match a, b with
  | .num x, .num y => .num (x * y)
  | _, _ => .null

def yearPart (v : Val) : Val := match v with | .date y _ _ => .num y | _ => .null
def monthPart (v : Val) : Val := match v with | .date _ m _ => .num m | _ => .null
def quarterPart (v : Val) : Val := match v with | .date _ m _ => .num ((m + 2) / 3 : ℕ) | _ => .null
def weekPart (v : Val) : Val := match v with | .date y m d => .num (isoWeek y m d) | _ => .null
def dayNamePart (v : Val) : Val := match v with | .date y m d => .str (dayNameOf y m d) | _ => .null

/-! ### Modeler (`ChinookModel`) -/

/-- The raw-table dictionary held by `ChinookModel`. -/
abbrev Tables := String → Option DataFrame

def tableOf (tables : Tables) (n : String) : DataFrame := (tables n).getD emptyDF

/-- `_check_required_tables`: the names of `required` tables absent
from the dictionary (the raised `KeyError` enumerates all of them). -/
def missingTablesOf (tables : Tables) (required : List String) : List String :=
  required.filter (fun t => (tables t).isNone)

def requiredSales : List String :=
  ["invoiceline", "invoice", "customer", "track", "album", "artist", "genre", "mediatype"]

/-- `df[c]` on a whole frame: the column's cells, or `KeyError`. -/
def requireCol (df : DataFrame) (c : String) : Except ModelError (List Val) :=
  if c ∈ df.cols then .ok (df.colVals c) else .error (.missingColumn c)

/-- The datetime block of `sales_line_items`: coerce `InvoiceDate` and
derive the `Year`/`Month`/`Quarter`/`Week`/`DayOfWeek` components (only
when the column exists). -/
def addDateFeatures (df : DataFrame) : DataFrame :=
  if "InvoiceDate" ∈ df.cols then
    let d0 := setCol df "InvoiceDate" ((df.colVals "InvoiceDate").map toDatetime)
    let d1 := setCol d0 "Year" ((d0.colVals "InvoiceDate").map yearPart)
    let d2 := setCol d1 "Month" ((d1.colVals "InvoiceDate").map monthPart)
    let d3 := setCol d2 "Quarter" ((d2.colVals "InvoiceDate").map quarterPart)
    let d4 := setCol d3 "Week" ((d3.colVals "InvoiceDate").map weekPart)
    setCol d4 "DayOfWeek" ((d4.colVals "InvoiceDate").map dayNamePart)
  else df

/-- The fixed projection list of `sales_line_items`. -/
def importantCols : List String :=
  ["InvoiceLineId", "InvoiceId", "InvoiceDate", "CustomerId", "FirstName", "LastName",
   "Country", "City", "TrackId", "Name", "Title", "ArtistId", "Name_artist", "GenreId",
   "Name_genre", "MediaTypeId", "Name_media", "UnitPrice", "Quantity", "LineTotal",
   "Year", "Month", "Quarter", "Week", "DayOfWeek"]

/-- The join / feature-engineering chain of `sales_line_items`, after
the required-table check has passed. -/
def salesCore (il inv cu tr al ar ge mt : DataFrame) : Except ModelError DataFrame := do
  let d1 ← mergeDF il inv "InvoiceId" "" "_invoice"
  let d2 ← mergeDF d1 cu "CustomerId" "" "_customer"
  let d3 ← mergeDF d2 tr "TrackId" "" "_track"
  let d4 ← mergeDF d3 al "AlbumId" "" "_album"
  let d5 ← mergeDF d4 ar "ArtistId" "" "_artist"
  let d6 ← mergeDF d5 ge "GenreId" "" "_genre"
  let d7 ← mergeDF d6 mt "MediaTypeId" "" "_media"
  let up ← requireCol d7 "UnitPrice"
  let qt ← requireCol d7 "Quantity"
  let d8 := setCol d7 "LineTotal" (List.zipWith valMul up qt)
  let d9 := addDateFeatures d8
  return selectCols d9 importantCols

/-- `ChinookModel.sales_line_items`. -/
def sales_line_items (tables : Tables) : Except ModelError DataFrame :=
  let missing := missingTablesOf tables requiredSales
  if missing.isEmpty then
    salesCore (tableOf tables "invoiceline") (tableOf tables "invoice")
      (tableOf tables "customer") (tableOf tables "track") (tableOf tables "album")
      (tableOf tables "artist") (tableOf tables "genre") (tableOf tables "mediatype")
  else .error (.missingTables missing)

/-- `ChinookModel.catalog`. -/
def catalog (tables : Tables) : Except ModelError DataFrame :=
  let missing := missingTablesOf tables ["track", "album", "artist", "genre", "mediatype"]
  if missing.isEmpty then do
    let c1 ← mergeDF (tableOf tables "track") (tableOf tables "album") "AlbumId" "_x" "_y"
    let c2 ← mergeDF c1 (tableOf tables "artist") "ArtistId" "" "_artist"
    let c3 ← mergeDF c2 (tableOf tables "genre") "GenreId" "" "_genre"
    let c4 ← mergeDF c3 (tableOf tables "mediatype") "MediaTypeId" "" "_media"
    let c5 := if "Milliseconds" ∈ c4.cols then
        setCol c4 "DurationMin" ((c4.colVals "Milliseconds").map
          (fun v => match v with | .num q => .num (q / 60000) | _ => .null))
      else c4
    return c5
  else .error (.missingTables missing)

/-- `ChinookModel.customers_dim`.  Note: the source lists *both*
`customer` and `employee` as required before its (dead) optionality
guard on `employee`. -/
def customers_dim (tables : Tables) : Except ModelError DataFrame :=
  let missing := missingTablesOf tables ["customer", "employee"]
  if missing.isEmpty then
    let customers := tableOf tables "customer"
    if (tables "employee").isSome ∧ "SupportRepId" ∈ customers.cols then
      mergeLR customers (tableOf tables "employee") "SupportRepId" "EmployeeId" "_rep"
    else .ok customers
  else .error (.missingTables missing)

/-- Key uniqueness on the joined side: any two rows differ on the key.
Null keys count as duplicates of each other, since pandas merge
matches NaN keys with each other. -/
def uniqueOn (df : DataFrame) (k : String) : Prop :=
  List.Pairwise (fun r1 r2 => getVal df.cols r1 k ≠ getVal df.cols r2 k) df.rows

instance (df : DataFrame) (k : String) : Decidable (uniqueOn df k) := by
  unfold uniqueOn; infer_instance

/-! ### Concrete witness data: a one-row Chinook instance -/

def wInvoiceline : DataFrame :=
  ⟨["InvoiceLineId", "InvoiceId", "TrackId", "UnitPrice", "Quantity"],
   [[.num 1, .num 1, .num 1, .num (99/100), .num 1]]⟩

def wInvoice : DataFrame :=
  ⟨["InvoiceId", "CustomerId", "InvoiceDate"],
   [[.num 1, .num 1, .str "2009-01-01 00:00:00"]]⟩

def wCustomer : DataFrame :=
  ⟨["CustomerId", "FirstName", "LastName", "Country", "City", "SupportRepId"],
   [[.num 1, .str "Ada", .str "Ltd", .str "Canada", .str "Ottawa", .num 3]]⟩

def wTrack : DataFrame :=
  ⟨["TrackId", "Name", "AlbumId", "MediaTypeId", "GenreId", "Milliseconds", "UnitPrice"],
   [[.num 1, .str "Song One", .num 1, .num 1, .num 1, .num 180000, .num (99/100)]]⟩

def wAlbum : DataFrame := ⟨["AlbumId", "Title", "ArtistId"], [[.num 1, .str "Alb", .num 1]]⟩

def wArtist : DataFrame := ⟨["ArtistId", "Name"], [[.num 1, .str "Art"]]⟩

def wGenre : DataFrame := ⟨["GenreId", "Name"], [[.num 1, .str "Rock"]]⟩

def wMediatype : DataFrame := ⟨["MediaTypeId", "Name"], [[.num 1, .str "MPEG"]]⟩

def wTables : Tables := fun n =>
  if n = "invoiceline" then some wInvoiceline
  else if n = "invoice" then some wInvoice
  else if n = "customer" then some wCustomer
  else if n = "track" then some wTrack
  else if n = "album" then some wAlbum
  else if n = "artist" then some wArtist
  else if n = "genre" then some wGenre
  else if n = "mediatype" then some wMediatype
  else none

/-- The same dictionary with the `genre` table removed. -/
def wTablesNoGenre : Tables := fun n => if n = "genre" then none else wTables n

/-- The dictionary holding only the `customer` table. -/
def custOnlyTables : Tables := fun n => if n = "customer" then some wCustomer else none

instance {a b : Type} [DecidableEq a] [DecidableEq b] : DecidableEq (Except a b) :=
  fun x y =>
    match x, y with
    | .ok v, .ok w => if h : v = w then isTrue (by rw [h]) else isFalse (by simp [h])
    | .error v, .error w => if h : v = w then isTrue (by rw [h]) else isFalse (by simp [h])
    | .ok _, .error _ => isFalse (by simp)
    | .error _, .ok _ => isFalse (by simp)

/-- The fact-column invariant of the sales table: `LineTotal` is the
elementwise product of `UnitPrice` and `Quantity`. -/
def LTProp (df : DataFrame) : Prop :=
  "LineTotal" ∈ df.cols ∧ "UnitPrice" ∈ df.cols ∧ "Quantity" ∈ df.cols ∧
  ∀ r ∈ df.rows, getVal df.cols r "LineTotal" =
    valMul (getVal df.cols r "UnitPrice") (getVal df.cols r "Quantity")

/-! ### Analyzer (`ChinookAnalyzer`) -/

def rankV : Val → ℕ
  | .null => 0
  | .num _ => 1
  | .str _ => 2
  | .date _ _ _ => 3
  | .sqrtOf _ => 4

/-- A total order on cell values, used where pandas sorts keys. -/
def valLeB (a b : Val) : Bool :=
  match a, b with
  | .num x, .num y => decide (x ≤ y)
  | .str x, .str y => decide (x ≤ y)
  | .date y1 m1 d1, .date y2 m2 d2 => decide (dayNumber y1 m1 d1 ≤ dayNumber y2 m2 d2)
  | .sqrtOf x, .sqrtOf y => decide (x ≤ y)
  | a, b => decide (rankV a ≤ rankV b)

def valLe (a b : Val) : Prop := valLeB a b = true

instance : DecidableRel valLe := fun a b => by unfold valLe; infer_instance

def monthLe (p q : Val × ℚ) : Prop := valLe p.1 q.1

instance : DecidableRel monthLe := fun p q => by unfold monthLe; infer_instance

/-- The state held by a constructed `ChinookAnalyzer`. -/
structure Analyzer where
  sales_df : DataFrame
  catalog_df : Option DataFrame
deriving DecidableEq, Repr

/-- The constructor's datetime coercion of the held copy:
`self.sales_df["InvoiceDate"] = pd.to_datetime(..., errors="coerce")`
(elementwise identity when the column is already datetime-typed). -/
def coerceInvoiceDate (df : DataFrame) : DataFrame :=
  setCol df "InvoiceDate" ((df.colVals "InvoiceDate").map toDatetime)

/-- `ChinookAnalyzer.__init__`: copy the inputs, require the
`InvoiceDate` and `LineTotal` columns, coerce the timestamp column. -/
def analyzerInit (sales_df : DataFrame) (catalog_df : Option DataFrame) :
    Except ModelError Analyzer :=
  let missing := ["InvoiceDate", "LineTotal"].filter (fun c => decide (c ∉ sales_df.cols))
  if missing.isEmpty then .ok ⟨coerceInvoiceDate sales_df, catalog_df⟩
  else .error (.missingColumns missing)

/-- `dt.to_period("M").dt.to_timestamp()` on one cell: truncate a date
to the first of its month; NaT stays NaT. -/
def monthStart (v : Val) : Val :=
  match v with
  | .date y m _ => .date y m 1
  | _ => .null

def numOf (v : Val) : ℚ := match v with | .num q => q | _ => 0

/-- `Series.sum()`: nulls (NaN) are skipped, non-numeric cells do not
occur in summed columns and count as zero. -/
def sumNum (vs : List Val) : ℚ := (vs.map numOf).sum

/-- The distinct non-null values of a column, sorted ascending —
pandas `groupby(key, sort=True, dropna=True)` group keys. -/
def groupKeys (df : DataFrame) (key : String) : List Val :=
  List.insertionSort valLe (((df.colVals key).filter (fun v => decide (v ≠ Val.null))).dedup)

/-- `df.groupby(key)[val].sum().reset_index()`. -/
def groupSum (df : DataFrame) (key val : String) : List (Val × ℚ) :=
  (groupKeys df key).map (fun k =>
    (k, sumNum ((df.rows.filter (fun r => decide (getVal df.cols r key = k))).map
      (fun r => getVal df.cols r val))))

/-- `ChinookAnalyzer.revenue_by_month`: month column, group-sum,
rename to `Revenue`, sort ascending by month (the result pairs are
(month, revenue)). -/
def revenue_by_month (a : Analyzer) : List (Val × ℚ) :=
  let df := setCol a.sales_df "Month" ((a.sales_df.colVals "InvoiceDate").map monthStart)
  List.insertionSort monthLe (groupSum df "Month" "LineTotal")

/-- A sales frame whose single row has a null invoice timestamp. -/
def cexSales : DataFrame := ⟨["InvoiceDate", "LineTotal"], [[.null, .num 5]]⟩

/-- A sales frame with one dated and one null-dated row. -/
def wSales2 : DataFrame :=
  ⟨["InvoiceDate", "LineTotal"],
   [[.str "2009-01-15 00:00:00", .num 5], [.null, .num 7]]⟩

/-- The analyzer holding the null-dated single-row frame. -/
def cexAnalyzer : Analyzer := ⟨⟨["InvoiceDate", "LineTotal"], [[.null, .num 5]]⟩, none⟩

/-- The analyzer holding `wSales2` after construction-time coercion. -/
def wAnalyzer2 : Analyzer :=
  ⟨⟨["InvoiceDate", "LineTotal"], [[.date 2009 1 15, .num 5], [.null, .num 7]]⟩, none⟩

/-! ### Text analysis (`top_words_in_track_titles`) -/

def defaultStopwords : List String :=
  ["the", "a", "and", "of", "to", "in", "on", "for", "with"]

/-- `astype(str)` on one cell. -/
def astypeStr : Val → String
  | .str s => s
  | .num q => toString q
  | .date y m d => toString y ++ "-" ++ toString m ++ "-" ++ toString d
  | .sqrtOf q => toString q
  | .null => "nan"

def isWsChar (c : Char) : Bool :=
  c = ' ' || c = '\t' || c = '\n' || c = '\r' || c = '\x0b' || c = '\x0c'

/-- `str.replace(r"[^a-z\s]", "")`: keep lowercase letters and whitespace. -/
def keepLowerWs (s : String) : String :=
  String.mk (s.data.filter (fun c => ('a' ≤ c && c ≤ 'z') || isWsChar c))

/-- `str.split()` with no separator: split on whitespace runs. -/
def splitWs (s : String) : List String :=
  (s.split (fun c => isWsChar c)).filter (fun w => decide (w ≠ ""))

/-- Lower-case, strip, split: the per-title token list. -/
def titleTokens (v : Val) : List String := splitWs (keepLowerWs ((astypeStr v).toLower))

def countGe (p q : String × ℕ) : Prop := q.2 ≤ p.2

instance : DecidableRel countGe := fun p q => by unfold countGe; infer_instance

/-- `Series.value_counts()`: distinct words with their occurrence
counts, most frequent first. -/
def value_counts (ws : List String) : List (String × ℕ) :=
  List.insertionSort countGe (ws.dedup.map (fun w => (w, ws.count w)))

/-- `ChinookAnalyzer.top_words_in_track_titles`. -/
def top_words_in_track_titles (a : Analyzer) (n : ℕ) (stopwords : Option (List String)) :
    Except ModelError (List (String × ℕ)) :=
  match a.catalog_df with
  | none => .error (.valueError "catalog_df is required for text analysis.")
  | some cat =>
    if "Name" ∈ cat.cols then
      let sw := stopwords.getD defaultStopwords
      let words := ((cat.colVals "Name").filter (fun v => decide (v ≠ Val.null))).map titleTokens
      let flat := (words.flatMap id).filter (fun w => decide (w ∉ sw))
      .ok ((value_counts flat).take n)
    else .error (.missingColumn "Name")

/-- `cat` with its null-`Name` rows removed. -/
def dropNullNames (cat : DataFrame) : DataFrame :=
  ⟨cat.cols, cat.rows.filter (fun r => decide (getVal cat.cols r "Name" ≠ Val.null))⟩

/-! ### RFM analysis (`rfm_analysis` / `safe_qcut`) -/

/-- Linear-interpolation quantile of an ascending list (pandas /
numpy default method), at fraction `p` of the way through. -/
def quantileAt (s : List ℚ) (p : ℚ) : ℚ :=
  let pos := p * ((s.length - 1 : ℕ) : ℚ)
  let i := pos.floor.toNat
  let g := pos - (i : ℚ)
  let a := s.getD i 0
  let b := s.getD (i + 1) a
  a + g * (b - a)

/-- The `q+1` quantile bin edges `pd.qcut` computes. -/
def qcutEdges (xs : List ℚ) (q : ℕ) : List ℚ :=
  let s := List.insertionSort (· ≤ ·) xs
  (List.range (q + 1)).map (fun i : ℕ => quantileAt s ((i : ℚ) / (q : ℚ)))

/-- Collapse equal adjacent edges (`duplicates="drop"` on the sorted
edge list). -/
def dedupConsec : List ℚ → List ℚ
  | [] => []
  | [a] => [a]
  | a :: b :: t => if a = b then dedupConsec (b :: t) else a :: dedupConsec (b :: t)

/-- Bin index of `v` among unique ascending edges: first interval is
closed (`include_lowest`), later ones are left-open right-closed. -/
def codeOf (uedges : List ℚ) (v : ℚ) : ℕ :=
  ((List.range (uedges.length - 1)).find? (fun j => decide (v ≤ uedges.getD (j + 1) 0))).getD
    (uedges.length - 2)

/-- `pd.qcut(xs, q, labels=False, duplicates="drop")`: integer bin
codes as an Option per entry.  When the quantile edges collapse to
fewer than two distinct values (a constant series), qcut does NOT
raise — every code comes back NaN (`none`).  Only an empty series
raises `ValueError` (its NaN edges fail the monotonicity check). -/
def qcutSeries (xs : List ℚ) (q : ℕ) : Except ModelError (List (Option ℕ)) :=
  if xs.isEmpty then .error (.valueError "bins must increase monotonically")
  else
    let uedges := dedupConsec (qcutEdges xs q)
    if uedges.length < 2 then .ok (xs.map (fun _ => none))
    else .ok (xs.map (fun v => some (codeOf uedges v)))

/-- `Series.rank(method="first")`: ascending rank with ties broken by
position. -/
def rankFirst (xs : List ℚ) : List ℚ :=
  (List.range xs.length).map (fun i =>
    (1 : ℚ) + (((List.range xs.length).filter (fun j =>
      decide (xs.getD j 0 < xs.getD i 0 ∨ (xs.getD j 0 = xs.getD i 0 ∧ j < i)))).length : ℕ))

def maxZ (l : List ℤ) : ℤ := l.foldl max (l.headD 0)

/-- `Series.max()` over values that may be NaN: NaN entries are
skipped; all-NaN gives NaN. -/
def optMax (l : List (Option ℤ)) : Option ℤ :=
  let xs := l.filterMap id
  if xs.isEmpty then none else some (maxZ xs)

/-- The scoring steps of `safe_qcut` that sit OUTSIDE the `try`:
`bins + 1`, the optional reversal around `bins.max()`, and
`astype(int)` — which raises `IntCastingNaNError` if any code is NaN
(as happens for a constant series, whose qcut returned all-NaN codes
without raising). -/
def qcutPost (reverse : Bool) (bins : List (Option ℕ)) : Except ModelError (List ℤ) :=
  let b1 : List (Option ℤ) := bins.map (Option.map (fun c => Int.ofNat c + 1))
  let b2 : List (Option ℤ) :=
    if reverse then
      match optMax b1 with
      | none => b1.map (fun _ => none)
      | some m => b1.map (Option.map (fun x => m + 1 - x))
    else b1
  if b2.all (fun o => o.isSome) then .ok (b2.map (fun o => o.getD 0))
  else .error (.valueError "Cannot convert non-finite values (NA or inf) to integer")

/-- The `safe_qcut` helper of `rfm_analysis`: the `except ValueError`
rank fallback guards only the `pd.qcut` call itself. -/
def safe_qcut (xs : List ℚ) (reverse : Bool) : Except ModelError (List ℤ) :=
  match qcutSeries xs 5 with
  | .ok bins => qcutPost reverse bins
  | .error _ =>
    match qcutSeries (rankFirst xs) 5 with
    | .ok bins => qcutPost reverse bins
    | .error e => .error e

structure RFMRow where
  CustomerId : Val
  Recency : ℤ
  Frequency : ℕ
  Monetary : ℚ
  R_Score : ℤ
  F_Score : ℤ
  M_Score : ℤ
  RFM_Score : ℤ
deriving DecidableEq, Repr

def dateDayOf (v : Val) : Option ℤ :=
  match v with
  | .date y m d => some (dayNumber y m d : ℤ)
  | _ => none

/-- The rows of customer `c` (pandas `groupby("CustomerId")` group). -/
def custRows (df : DataFrame) (c : Val) : List (List Val) :=
  df.rows.filter (fun r => decide (getVal df.cols r "CustomerId" = c))

def custDates (df : DataFrame) (c : Val) : List ℤ :=
  (custRows df c).filterMap (fun r => dateDayOf (getVal df.cols r "InvoiceDate"))

def allDates (df : DataFrame) : List ℤ :=
  df.rows.filterMap (fun r => dateDayOf (getVal df.cols r "InvoiceDate"))

/-- `today = sales["InvoiceDate"].max() + 1 day`, in day numbers. -/
def todayD (df : DataFrame) : ℤ := maxZ (allDates df) + 1

/-- `Recency = (today - group["InvoiceDate"].max()).days`. -/
def recencyOf (df : DataFrame) (c : Val) : ℤ := todayD df - maxZ (custDates df c)

/-- `Frequency = group["InvoiceId"].nunique()` (nulls dropped). -/
def frequencyOf (df : DataFrame) (c : Val) : ℕ :=
  (((custRows df c).map (fun r => getVal df.cols r "InvoiceId")).filter
    (fun v => decide (v ≠ Val.null))).dedup.length

/-- `Monetary = group["LineTotal"].sum()`. -/
def monetaryOf (df : DataFrame) (c : Val) : ℚ :=
  sumNum ((custRows df c).map (fun r => getVal df.cols r "LineTotal"))

/-- The group keys of `groupby("CustomerId")`. -/
def customersOf (df : DataFrame) : List Val := groupKeys df "CustomerId"

/-- Descending order on total RFM score (`ascending=False`). -/
def rfmLe (a b : RFMRow) : Prop := b.RFM_Score ≤ a.RFM_Score

instance : DecidableRel rfmLe := fun a b => by unfold rfmLe; infer_instance

instance : IsTotal RFMRow rfmLe :=
  ⟨fun a b => by unfold rfmLe; exact le_total b.RFM_Score a.RFM_Score⟩

instance : IsTrans RFMRow rfmLe :=
  ⟨fun a b c hab hbc => by unfold rfmLe at hab hbc ⊢; exact le_trans hbc hab⟩

/-- Row `i` of the aggregated RFM frame with its assigned scores. -/
def rfmBase (df : DataFrame) (cust : List Val) (rS fS mS : List ℤ) (i : ℕ) : RFMRow :=
  { CustomerId := cust.getD i Val.null,
    Recency := recencyOf df (cust.getD i Val.null),
    Frequency := frequencyOf df (cust.getD i Val.null),
    Monetary := monetaryOf df (cust.getD i Val.null),
    R_Score := rS.getD i 0,
    F_Score := fS.getD i 0,
    M_Score := mS.getD i 0,
    RFM_Score := rS.getD i 0 + fS.getD i 0 + mS.getD i 0 }

/-- `ChinookAnalyzer.rfm_analysis`.  A customer group whose dates are
all null yields a NaN `Recency`, which makes the final `astype(int)`
raise — modeled as the explicit `ValueError` guard. -/
def rfm_analysis (a : Analyzer) : Except ModelError (List RFMRow) :=
  let df := a.sales_df
  if "CustomerId" ∈ df.cols then
    let cust := customersOf df
    if cust.any (fun c => (custDates df c).isEmpty) then
      .error (.valueError "Cannot convert non-finite values (NA or inf) to integer")
    else do
      let rS ← safe_qcut (cust.map (fun c => (recencyOf df c : ℚ))) true
      let fS ← safe_qcut (cust.map (fun c => (frequencyOf df c : ℚ))) false
      let mS ← safe_qcut (cust.map (fun c => monetaryOf df c)) false
      return List.insertionSort rfmLe ((List.range cust.length).map (rfmBase df cust rS fS mS))
  else .error (.missingColumn "CustomerId")

/-- Three customers with distinct recency/frequency/monetary profiles. -/
def wRfmAnalyzer : Analyzer :=
  ⟨⟨["CustomerId", "InvoiceId", "InvoiceDate", "LineTotal"],
    [[.num 1, .num 1, .date 2009 3 1, .num 100],
     [.num 2, .num 2, .date 2009 3 10, .num 250],
     [.num 2, .num 3, .date 2009 3 10, .num 250],
     [.num 3, .num 4, .date 2008 12 1, .num 50]]⟩, none⟩

/-! ### Frame store: object identity and in-place mutation

The `.copy()` / in-place-assignment discipline of the source is modeled
with an explicit store of frames.  Each Python DataFrame object is a
store slot; `.copy()` and every operation returning a fresh frame
allocate a new slot, `df[col] = ...` and `inplace=True` operations
overwrite the slot of their target object.  The frame-effect claim is
that every method leaves all pre-existing slots untouched. -/

abbrev Store := List DataFrame

def sread (s : Store) (r : ℕ) : DataFrame := s.getD r emptyDF

def salloc (s : Store) (d : DataFrame) : Store × ℕ := (s ++ [d], s.length)

def swrite (s : Store) (r : ℕ) (d : DataFrame) : Store := s.set r d

/-- The original store is an unchanged prefix of the new one. -/
def StoreExtends (s s2 : Store) : Prop :=
  s.length ≤ s2.length ∧ s2.take s.length = s

def valAdd (a b : Val) : Val :=
  match a, b with
  | .num x, .num y => .num (x + y)
  | _, _ => .null

def renameCol (df : DataFrame) (old new : String) : DataFrame :=
  ⟨df.cols.map (fun c => if c = old then new else c), df.rows⟩

/-- `groupby(key)[val].sum().reset_index()` as a frame. -/
def groupSumFrame (df : DataFrame) (key val : String) : DataFrame :=
  ⟨[key, val], (groupSum df key val).map (fun p => [p.1, .num p.2])⟩

def sortRowsAsc (df : DataFrame) (key : String) : DataFrame :=
  ⟨df.cols, List.insertionSort
    (fun r1 r2 => valLe (getVal df.cols r1 key) (getVal df.cols r2 key)) df.rows⟩

def sortRowsDesc (df : DataFrame) (key : String) : DataFrame :=
  ⟨df.cols, List.insertionSort
    (fun r1 r2 => valLe (getVal df.cols r2 key) (getVal df.cols r1 key)) df.rows⟩

def revenueDescLe (p q : Val × ℚ) : Prop := q.2 ≤ p.2

instance : DecidableRel revenueDescLe := fun p q => by unfold revenueDescLe; infer_instance

/-- `groupby(col)["LineTotal"].sum().sort_values(ascending=False).head(n).reset_index()`. -/
def topPre (df : DataFrame) (col : String) (n : ℕ) : DataFrame :=
  ⟨[col, "LineTotal"],
   ((List.insertionSort revenueDescLe (groupSum df col "LineTotal")).take n).map
     (fun p => [p.1, .num p.2])⟩

/-- Lexicographic order on the three-part CLV grouping key. -/
def tripleLeB (a b : Val × Val × Val) : Bool :=
  if a.1 = b.1 then (if a.2.1 = b.2.1 then valLeB a.2.2 b.2.2 else valLeB a.2.1 b.2.1)
  else valLeB a.1 b.1

def tripleLe (a b : Val × Val × Val) : Prop := tripleLeB a b = true

instance : DecidableRel tripleLe := fun a b => by unfold tripleLe; infer_instance

/-- The `(CustomerId, FirstName, LastName)` group keys, sorted; rows
with any null key component are dropped by the groupby. -/
def clvKeys (df : DataFrame) : List (Val × Val × Val) :=
  List.insertionSort tripleLe
    (((df.rows.map (fun r => (getVal df.cols r "CustomerId",
        getVal df.cols r "FirstName", getVal df.cols r "LastName"))).filter
      (fun t => decide (t.1 ≠ Val.null ∧ t.2.1 ≠ Val.null ∧ t.2.2 ≠ Val.null))).dedup)

def clvSumOf (df : DataFrame) (t : Val × Val × Val) : ℚ :=
  sumNum ((df.rows.filter (fun r => decide (getVal df.cols r "CustomerId" = t.1 ∧
    getVal df.cols r "FirstName" = t.2.1 ∧ getVal df.cols r "LastName" = t.2.2))).map
    (fun r => getVal df.cols r "LineTotal"))

def clvDescLe (p q : (Val × Val × Val) × ℚ) : Prop := q.2 ≤ p.2

instance : DecidableRel clvDescLe := fun p q => by unfold clvDescLe; infer_instance

/-- `customer_lifetime_value` before the in-place rename. -/
def clvPre (df : DataFrame) (n : ℕ) : DataFrame :=
  ⟨["CustomerId", "FirstName", "LastName", "LineTotal"],
   ((List.insertionSort clvDescLe ((clvKeys df).map (fun t => (t, clvSumOf df t)))).take n).map
     (fun p => [p.1.1, p.1.2.1, p.1.2.2, .num p.2])⟩

/-- The aggregated per-customer RFM frame before scoring. -/
def rfmAggFrame (df : DataFrame) : DataFrame :=
  ⟨["CustomerId", "Recency", "Frequency", "Monetary"],
   (customersOf df).map (fun c =>
     [c, .num (recencyOf df c : ℤ), .num (frequencyOf df c : ℕ), .num (monetaryOf df c)])⟩

/-- `pd.Series(flat_words).value_counts().head(n).reset_index()` with
its freshly assigned column names pending. -/
def topWordsPre (cat : DataFrame) (n : ℕ) (sw : List String) : DataFrame :=
  ⟨["index", "count"],
   ((value_counts (((((cat.colVals "Name").filter (fun v => decide (v ≠ Val.null))).map
      titleTokens).flatMap id).filter (fun w => decide (w ∉ sw)))).take n).map
     (fun p => [.str p.1, .num (p.2 : ℕ)])⟩

/-- `Series.describe()` over the non-null numeric values. -/
def describeFrame (vs : List Val) : DataFrame :=
  let xs := vs.filterMap (fun v => match v with | .num q => some q | _ => none)
  let n := xs.length
  let srt := List.insertionSort (· ≤ ·) xs
  let mean := xs.sum / (n : ℚ)
  ⟨["count", "mean", "std", "min", "25%", "50%", "75%", "max"],
   [[.num (n : ℕ),
     if n = 0 then Val.null else .num mean,
     if n ≤ 1 then Val.null
       else .sqrtOf ((xs.map (fun x => (x - mean) * (x - mean))).sum / ((n - 1 : ℕ) : ℚ)),
     if n = 0 then Val.null else .num (quantileAt srt 0),
     if n = 0 then Val.null else .num (quantileAt srt (1/4)),
     if n = 0 then Val.null else .num (quantileAt srt (1/2)),
     if n = 0 then Val.null else .num (quantileAt srt (3/4)),
     if n = 0 then Val.null else .num (quantileAt srt 1)]]⟩

/-! Store-level versions of the Modeler and Analyzer operations.  Each
mirrors the allocation (`.copy()`, merges, groupbys) and in-place
writes (column assignment, `inplace=True` rename) of the source; a
raise mid-method returns `none` with the allocations made so far. -/

/-- `ChinookModel.sales_line_items` over the store. -/
def sales_line_itemsS (s : Store) (tbl : String → Option ℕ) : Store × Option ℕ :=
  let missing := requiredSales.filter (fun t => (tbl t).isNone)
  if missing.isEmpty then
    let rd := fun (st : Store) (n : String) => sread st ((tbl n).getD 0)
    let (s1, _dfR) := salloc s (rd s "invoiceline")
    match mergeDF (sread s1 _dfR) (rd s1 "invoice") "InvoiceId" "" "_invoice" with
    | .error _ => (s1, none)
    | .ok d1 =>
    let (s2, r1) := salloc s1 d1
    match mergeDF (sread s2 r1) (rd s2 "customer") "CustomerId" "" "_customer" with
    | .error _ => (s2, none)
    | .ok d2 =>
    let (s3, r2) := salloc s2 d2
    match mergeDF (sread s3 r2) (rd s3 "track") "TrackId" "" "_track" with
    | .error _ => (s3, none)
    | .ok d3 =>
    let (s4, r3) := salloc s3 d3
    match mergeDF (sread s4 r3) (rd s4 "album") "AlbumId" "" "_album" with
    | .error _ => (s4, none)
    | .ok d4 =>
    let (s5, r4) := salloc s4 d4
    match mergeDF (sread s5 r4) (rd s5 "artist") "ArtistId" "" "_artist" with
    | .error _ => (s5, none)
    | .ok d5 =>
    let (s6, r5) := salloc s5 d5
    match mergeDF (sread s6 r5) (rd s6 "genre") "GenreId" "" "_genre" with
    | .error _ => (s6, none)
    | .ok d6 =>
    let (s7, r6) := salloc s6 d6
    match mergeDF (sread s7 r6) (rd s7 "mediatype") "MediaTypeId" "" "_media" with
    | .error _ => (s7, none)
    | .ok d7 =>
    let (s8, r7) := salloc s7 d7
    match requireCol (sread s8 r7) "UnitPrice", requireCol (sread s8 r7) "Quantity" with
    | .ok up, .ok qt =>
      let s9 := swrite s8 r7 (setCol (sread s8 r7) "LineTotal" (List.zipWith valMul up qt))
      let s10 := swrite s9 r7 (addDateFeatures (sread s9 r7))
      let (s11, outR) := salloc s10 (selectCols (sread s10 r7) importantCols)
      (s11, some outR)
    | _, _ => (s8, none)
  else (s, none)

/-- `ChinookModel.catalog` over the store. -/
def catalogS (s : Store) (tbl : String → Option ℕ) : Store × Option ℕ :=
  let missing := ["track", "album", "artist", "genre", "mediatype"].filter
    (fun t => (tbl t).isNone)
  if missing.isEmpty then
    let rd := fun (st : Store) (n : String) => sread st ((tbl n).getD 0)
    let (s1, c0) := salloc s (rd s "track")
    match mergeDF (sread s1 c0) (rd s1 "album") "AlbumId" "_x" "_y" with
    | .error _ => (s1, none)
    | .ok d1 =>
    let (s2, r1) := salloc s1 d1
    match mergeDF (sread s2 r1) (rd s2 "artist") "ArtistId" "" "_artist" with
    | .error _ => (s2, none)
    | .ok d2 =>
    let (s3, r2) := salloc s2 d2
    match mergeDF (sread s3 r2) (rd s3 "genre") "GenreId" "" "_genre" with
    | .error _ => (s3, none)
    | .ok d3 =>
    let (s4, r3) := salloc s3 d3
    match mergeDF (sread s4 r3) (rd s4 "mediatype") "MediaTypeId" "" "_media" with
    | .error _ => (s4, none)
    | .ok d4 =>
    let (s5, r4) := salloc s4 d4
    let s6 := if "Milliseconds" ∈ (sread s5 r4).cols then
        swrite s5 r4 (setCol (sread s5 r4) "DurationMin" (((sread s5 r4).colVals
          "Milliseconds").map (fun v => match v with | .num q => .num (q / 60000) | _ => .null)))
      else s5
    (s6, some r4)
  else (s, none)

/-- `ChinookModel.customers_dim` over the store. -/
def customers_dimS (s : Store) (tbl : String → Option ℕ) : Store × Option ℕ :=
  let missing := ["customer", "employee"].filter (fun t => (tbl t).isNone)
  if missing.isEmpty then
    let (s1, c0) := salloc s (sread s ((tbl "customer").getD 0))
    if (tbl "employee").isSome ∧ "SupportRepId" ∈ (sread s1 c0).cols then
      match mergeLR (sread s1 c0) (sread s1 ((tbl "employee").getD 0))
          "SupportRepId" "EmployeeId" "_rep" with
      | .error _ => (s1, none)
      | .ok d1 =>
        let (s2, r1) := salloc s1 d1
        (s2, some r1)
    else (s1, some c0)
  else (s, none)

/-- `ChinookAnalyzer.__init__` over the store: copy both inputs, then
coerce `InvoiceDate` in place on the held copy. -/
def analyzerInitS (s : Store) (salesRef : ℕ) (catalogRef : Option ℕ) :
    Store × Option (ℕ × Option ℕ) :=
  let (s1, sR) := salloc s (sread s salesRef)
  let scr : Store × Option ℕ := match catalogRef with
    | some cr =>
      let (s2, cR) := salloc s1 (sread s1 cr)
      (s2, some cR)
    | none => (s1, none)
  let s2 := scr.1
  let missing := ["InvoiceDate", "LineTotal"].filter (fun c => decide (c ∉ (sread s2 sR).cols))
  if missing.isEmpty then
    let s3 := swrite s2 sR (coerceInvoiceDate (sread s2 sR))
    (s3, some (sR, scr.2))
  else (s2, none)

/-- `revenue_by_month` over the store. -/
def revenue_by_monthS (s : Store) (salesRef : ℕ) : Store × Option ℕ :=
  let (s1, dfR) := salloc s (sread s salesRef)
  let s2 := swrite s1 dfR (setCol (sread s1 dfR) "Month"
    (((sread s1 dfR).colVals "InvoiceDate").map monthStart))
  let (s3, resR) := salloc s2 (groupSumFrame (sread s2 dfR) "Month" "LineTotal")
  let s4 := swrite s3 resR (renameCol (sread s3 resR) "LineTotal" "Revenue")
  let (s5, outR) := salloc s4 (sortRowsAsc (sread s4 resR) "Month")
  (s5, some outR)

/-- `top_countries_by_revenue` / `top_genres_by_revenue` /
`top_artists_by_revenue` over the store (per grouping column). -/
def topByRevenueS (s : Store) (salesRef : ℕ) (col : String) (n : ℕ) : Store × Option ℕ :=
  if col ∈ (sread s salesRef).cols then
    let (s1, resR) := salloc s (topPre (sread s salesRef) col n)
    let s2 := swrite s1 resR (renameCol (sread s1 resR) "LineTotal" "Revenue")
    (s2, some resR)
  else (s, none)

/-- `customer_lifetime_value` over the store. -/
def customer_lifetime_valueS (s : Store) (salesRef : ℕ) (n : ℕ) : Store × Option ℕ :=
  if "CustomerId" ∈ (sread s salesRef).cols then
    let (s1, resR) := salloc s (clvPre (sread s salesRef) n)
    let s2 := swrite s1 resR (renameCol (sread s1 resR) "LineTotal" "TotalRevenue")
    (s2, some resR)
  else (s, none)

/-- `rfm_analysis` over the store. -/
def rfm_analysisS (s : Store) (salesRef : ℕ) : Store × Option ℕ :=
  let df := sread s salesRef
  if "CustomerId" ∈ df.cols then
    let cust := customersOf df
    let (s1, rfmR) := salloc s (rfmAggFrame df)
    if cust.any (fun c => (custDates df c).isEmpty) then (s1, none)
    else
      match safe_qcut (cust.map (fun c => (recencyOf df c : ℚ))) true with
      | .error _ => (s1, none)
      | .ok rS =>
      let s2 := swrite s1 rfmR (setCol (sread s1 rfmR) "R_Score"
        (rS.map (fun z => Val.num (z : ℤ))))
      match safe_qcut (cust.map (fun c => (frequencyOf df c : ℚ))) false with
      | .error _ => (s2, none)
      | .ok fS =>
      let s3 := swrite s2 rfmR (setCol (sread s2 rfmR) "F_Score"
        (fS.map (fun z => Val.num (z : ℤ))))
      match safe_qcut (cust.map (fun c => monetaryOf df c)) false with
      | .error _ => (s3, none)
      | .ok mS =>
      let s4 := swrite s3 rfmR (setCol (sread s3 rfmR) "M_Score"
        (mS.map (fun z => Val.num (z : ℤ))))
      let fr := sread s4 rfmR
      let s5 := swrite s4 rfmR (setCol fr "RFM_Score"
        (List.zipWith valAdd (List.zipWith valAdd (fr.colVals "R_Score")
          (fr.colVals "F_Score")) (fr.colVals "M_Score")))
      let (s6, outR) := salloc s5 (sortRowsDesc (sread s5 rfmR) "RFM_Score")
      (s6, some outR)
  else (s, none)

/-- `top_words_in_track_titles` over the store. -/
def top_words_in_track_titlesS (s : Store) (catalogRef : Option ℕ) (n : ℕ)
    (stopwords : Option (List String)) : Store × Option ℕ :=
  match catalogRef with
  | none => (s, none)
  | some cr =>
    let cat := sread s cr
    if "Name" ∈ cat.cols then
      let (s1, resR) := salloc s (topWordsPre cat n (stopwords.getD defaultStopwords))
      let s2 := swrite s1 resR ⟨["Word", "Frequency"], (sread s1 resR).rows⟩
      (s2, some resR)
    else (s, none)

/-- `duration_stats` over the store. -/
def duration_statsS (s : Store) (catalogRef : Option ℕ) : Store × Option ℕ :=
  match catalogRef with
  | none => (s, none)
  | some cr =>
    let cat := sread s cr
    if "DurationMin" ∈ cat.cols then
      let (s1, resR) := salloc s (describeFrame (cat.colVals "DurationMin"))
      (s1, some resR)
    else (s, none)

/-! ### Basic lemmas about the table primitives -/

theorem getVal_map (cols : List String) (f : String → Val) (c : String) (hc : c ∈ cols) :
    getVal cols (cols.map f) c = f c := by
  induction cols with
  | nil => cases hc
  | cons c2 cs ih =>
    simp only [List.map_cons, getVal]
    by_cases h : c2 = c
    · subst h; simp
    · rcases List.mem_cons.mp hc with h1 | h1
      · exact absurd h1.symm h
      · simp only [if_neg h]; exact ih h1

theorem mem_setCol_cols {df : DataFrame} {c2 : String} (c : String) (vals : List Val)
    (h : c2 ∈ df.cols) : c2 ∈ (setCol df c vals).cols := by
  simp only [setCol]
  split
  · exact h
  · exact List.mem_append_left _ h

theorem setCol_target_mem (df : DataFrame) (c : String) (vals : List Val) :
    c ∈ (setCol df c vals).cols := by
  simp only [setCol]
  split
  · assumption
  · simp

theorem mem_zipWith_idx {α β γ : Type} {f : α → β → γ} {l1 : List α} {l2 : List β} {x : γ}
    (hx : x ∈ List.zipWith f l1 l2) :
    ∃ i, ∃ h1 : i < l1.length, ∃ h2 : i < l2.length, x = f l1[i] l2[i] := by
  rcases List.mem_iff_getElem.mp hx with ⟨i, hi, hgx⟩
  have hi2 := hi
  rw [List.length_zipWith, lt_min_iff] at hi2
  exact ⟨i, hi2.1, hi2.2, by rw [← hgx]; exact List.getElem_zipWith⟩

theorem setCol_rows_length (df : DataFrame) (c : String) (vals : List Val)
    (h : vals.length = df.rows.length) :
    (setCol df c vals).rows.length = df.rows.length := by
  simp [setCol, List.length_zipWith, h]

theorem colVals_length (df : DataFrame) (c : String) :
    (df.colVals c).length = df.rows.length := by
  simp [DataFrame.colVals]

theorem addDateFeatures_rows_length (df : DataFrame) :
    (addDateFeatures df).rows.length = df.rows.length := by
  unfold addDateFeatures
  split
  · rw [setCol_rows_length, setCol_rows_length, setCol_rows_length, setCol_rows_length,
      setCol_rows_length, setCol_rows_length] <;>
      simp [colVals_length, List.length_map]
  · rfl

theorem selectCols_rows_length (df : DataFrame) (cs : List String) :
    (selectCols df cs).rows.length = df.rows.length := by
  simp [selectCols]

/-- At most one joined-side row matches a given key value when the key
column is duplicate-free. -/
theorem matches_length_le_one {cols : List String} {rows : List (List Val)} {k : String}
    {lk : Val}
    (hp : List.Pairwise (fun r1 r2 => getVal cols r1 k ≠ getVal cols r2 k) rows) :
    (rows.filter (fun rr => decide (getVal cols rr k = lk))).length ≤ 1 := by
  induction rows with
  | nil => simp
  | cons r rest ih =>
    rcases List.pairwise_cons.mp hp with ⟨hr, hrest⟩
    by_cases hmatch : getVal cols r k = lk
    · have hnil : rest.filter (fun rr => decide (getVal cols rr k = lk)) = [] := by
        rw [List.filter_eq_nil_iff]
        intro rr hrr
        simp only [decide_eq_true_eq]
        intro heq
        exact hr rr hrr (hmatch.trans heq.symm)
      simp [List.filter, hmatch, hnil]
    · simpa [List.filter, hmatch] using ih hrest

theorem sum_map_length_one {α : Type} {l : List α} {f : α → ℕ}
    (h : ∀ a ∈ l, f a = 1) : (l.map f).sum = l.length := by
  induction l with
  | nil => simp
  | cons a rest ih =>
    simp only [List.map_cons, List.sum_cons, h a (List.mem_cons_self a rest),
      List.length_cons]
    rw [ih (fun b hb => h b (List.mem_cons_of_mem a hb))]
    omega

/-- A left merge against a key-unique right side preserves the row count. -/
theorem mergeDF_rows_length {l r : DataFrame} {k sufL sufR : String} {m : DataFrame}
    (hm : mergeDF l r k sufL sufR = .ok m) (hu : uniqueOn r k) :
    m.rows.length = l.rows.length := by
  unfold mergeDF at hm
  split at hm
  · rw [Except.ok.injEq] at hm
    subst hm
    simp only [List.length_flatMap]
    apply sum_map_length_one
    intro lr _
    simp only [Function.comp_apply]
    set ms := r.rows.filter (fun rr => decide (getVal r.cols rr k = getVal l.cols lr k))
      with hms
    by_cases he : ms.isEmpty
    · simp [he]
    · have hne : ms ≠ [] := by
        intro hnil
        rw [hnil] at he
        simp at he
      have hpos : 0 < ms.length := List.length_pos.mpr hne
      have hle : ms.length ≤ 1 := matches_length_le_one hu
      rw [if_neg (by simpa using he), List.length_map]
      omega
  · simp at hm

theorem except_bind_ok {α β : Type} {x : Except ModelError α} {f : α → Except ModelError β}
    {b : β} (h : x >>= f = .ok b) : ∃ a, x = .ok a ∧ f a = .ok b := by
  cases x with
  | error e => simp [Bind.bind, Except.bind] at h
  | ok a => exact ⟨a, rfl, by simpa [Bind.bind, Except.bind] using h⟩

theorem except_bind_error {α β : Type} {x : Except ModelError α}
    {f : α → Except ModelError β} {e : ModelError} (h : x >>= f = .error e) :
    x = .error e ∨ ∃ a, x = .ok a ∧ f a = .error e := by
  cases x with
  | error e2 =>
    left
    have : e2 = e := by simpa [Bind.bind, Except.bind] using h
    rw [this]
  | ok a => exact Or.inr ⟨a, rfl, by simpa [Bind.bind, Except.bind] using h⟩

/-- Successful runs of `salesCore` decompose into their seven
successful merges, the two fact columns, and the final projection. -/
theorem salesCore_ok {il inv cu tr al ar ge mt : DataFrame} {df : DataFrame}
    (h : salesCore il inv cu tr al ar ge mt = .ok df) :
    ∃ d1 d2 d3 d4 d5 d6 d7 up qt,
      mergeDF il inv "InvoiceId" "" "_invoice" = .ok d1 ∧
      mergeDF d1 cu "CustomerId" "" "_customer" = .ok d2 ∧
      mergeDF d2 tr "TrackId" "" "_track" = .ok d3 ∧
      mergeDF d3 al "AlbumId" "" "_album" = .ok d4 ∧
      mergeDF d4 ar "ArtistId" "" "_artist" = .ok d5 ∧
      mergeDF d5 ge "GenreId" "" "_genre" = .ok d6 ∧
      mergeDF d6 mt "MediaTypeId" "" "_media" = .ok d7 ∧
      requireCol d7 "UnitPrice" = .ok up ∧
      requireCol d7 "Quantity" = .ok qt ∧
      df = selectCols (addDateFeatures (setCol d7 "LineTotal" (List.zipWith valMul up qt)))
        importantCols := by
  unfold salesCore at h
  obtain ⟨d1, e1, h⟩ := except_bind_ok h
  obtain ⟨d2, e2, h⟩ := except_bind_ok h
  obtain ⟨d3, e3, h⟩ := except_bind_ok h
  obtain ⟨d4, e4, h⟩ := except_bind_ok h
  obtain ⟨d5, e5, h⟩ := except_bind_ok h
  obtain ⟨d6, e6, h⟩ := except_bind_ok h
  obtain ⟨d7, e7, h⟩ := except_bind_ok h
  obtain ⟨up, e8, h⟩ := except_bind_ok h
  obtain ⟨qt, e9, h⟩ := except_bind_ok h
  simp only [pure, Except.pure, Except.ok.injEq] at h
  exact ⟨d1, d2, d3, d4, d5, d6, d7, up, qt, e1, e2, e3, e4, e5, e6, e7, e8, e9, h.symm⟩

/-- `salesCore` only ever raises column-level `KeyError`s: once the
required-table check has passed, no missing-table error can escape it. -/
theorem salesCore_error {il inv cu tr al ar ge mt : DataFrame} {e : ModelError}
    (h : salesCore il inv cu tr al ar ge mt = .error e) :
    ∃ c, e = .missingColumn c := by
  have merr : ∀ (l r : DataFrame) (k s1 s2 : String),
      mergeDF l r k s1 s2 = .error e → ∃ c, e = .missingColumn c := by
    intro l r k s1 s2 hm
    unfold mergeDF at hm
    split at hm
    · simp at hm
    · exact ⟨k, by simpa using hm.symm⟩
  have rerr : ∀ (d : DataFrame) (c : String),
      requireCol d c = .error e → ∃ c2, e = .missingColumn c2 := by
    intro d c hr
    unfold requireCol at hr
    split at hr
    · simp at hr
    · exact ⟨c, by simpa using hr.symm⟩
  unfold salesCore at h
  rcases except_bind_error h with h | ⟨d1, e1, h⟩
  · exact merr _ _ _ _ _ h
  rcases except_bind_error h with h | ⟨d2, e2, h⟩
  · exact merr _ _ _ _ _ h
  rcases except_bind_error h with h | ⟨d3, e3, h⟩
  · exact merr _ _ _ _ _ h
  rcases except_bind_error h with h | ⟨d4, e4, h⟩
  · exact merr _ _ _ _ _ h
  rcases except_bind_error h with h | ⟨d5, e5, h⟩
  · exact merr _ _ _ _ _ h
  rcases except_bind_error h with h | ⟨d6, e6, h⟩
  · exact merr _ _ _ _ _ h
  rcases except_bind_error h with h | ⟨d7, e7, h⟩
  · exact merr _ _ _ _ _ h
  rcases except_bind_error h with h | ⟨up, e8, h⟩
  · exact rerr _ _ h
  rcases except_bind_error h with h | ⟨qt, e9, h⟩
  · exact rerr _ _ h
  simp [pure, Except.pure] at h

theorem requireCol_ok {df : DataFrame} {c : String} {v : List Val}
    (h : requireCol df c = .ok v) : v = df.colVals c ∧ c ∈ df.cols := by
  unfold requireCol at h
  split at h
  · exact ⟨by simpa using h.symm, by assumption⟩
  · simp at h

/-- C2: if each of the seven joined tables is unique on its join key,
`sales_line_items` returns exactly one output row per raw invoice-line
row. -/
theorem sales_row_count_eq_invoiceline (tables : Tables)
    (h1 : uniqueOn (tableOf tables "invoice") "InvoiceId")
    (h2 : uniqueOn (tableOf tables "customer") "CustomerId")
    (h3 : uniqueOn (tableOf tables "track") "TrackId")
    (h4 : uniqueOn (tableOf tables "album") "AlbumId")
    (h5 : uniqueOn (tableOf tables "artist") "ArtistId")
    (h6 : uniqueOn (tableOf tables "genre") "GenreId")
    (h7 : uniqueOn (tableOf tables "mediatype") "MediaTypeId")
    {df : DataFrame} (h : sales_line_items tables = .ok df) :
    df.rows.length = (tableOf tables "invoiceline").rows.length := by
  simp only [sales_line_items] at h
  split at h
  case isFalse => simp at h
  case isTrue hMiss =>
  obtain ⟨d1, d2, d3, d4, d5, d6, d7, up, qt, e1, e2, e3, e4, e5, e6, e7, e8, e9, heq⟩ :=
    salesCore_ok h
  obtain ⟨hup, _⟩ := requireCol_ok e8
  obtain ⟨hqt, _⟩ := requireCol_ok e9
  subst heq
  rw [selectCols_rows_length, addDateFeatures_rows_length, setCol_rows_length]
  · rw [mergeDF_rows_length e7 h7, mergeDF_rows_length e6 h6, mergeDF_rows_length e5 h5,
      mergeDF_rows_length e4 h4, mergeDF_rows_length e3 h3, mergeDF_rows_length e2 h2,
      mergeDF_rows_length e1 h1]
  · rw [List.length_zipWith, hup, hqt, colVals_length, colVals_length]
    simp

/-- Witness for C2 on the one-row instance. -/
theorem sales_row_count_eq_invoiceline_witness :
    uniqueOn (tableOf wTables "invoice") "InvoiceId" ∧
    (sales_line_items wTables).map (fun d => d.rows.length) =
      .ok (tableOf wTables "invoiceline").rows.length := by
  refine ⟨by decide, ?_⟩
  have hOk : (sales_line_items wTables).isOk = true := by decide
  cases hE : sales_line_items wTables with
  | error e => rw [hE] at hOk; simp [Except.isOk, Except.toBool] at hOk
  | ok d =>
    simp only [Except.map, Except.ok.injEq]
    exact sales_row_count_eq_invoiceline wTables (by decide) (by decide) (by decide)
      (by decide) (by decide) (by decide) (by decide) hE

/-- C7: a missing required table makes `sales_line_items` fail with a
missing-table error enumerating exactly the absent required tables;
when all eight are present, no missing-table error is raised. -/
theorem sales_line_items_missing_table_error (tables : Tables) :
    ((∃ t ∈ requiredSales, tables t = none) →
      sales_line_items tables = .error (.missingTables (missingTablesOf tables requiredSales)) ∧
      ∀ t ∈ requiredSales, (tables t = none ↔ t ∈ missingTablesOf tables requiredSales)) ∧
    ((∀ t ∈ requiredSales, tables t ≠ none) →
      ∀ ms, sales_line_items tables ≠ .error (.missingTables ms)) := by
  constructor
  · rintro ⟨t, ht, htnone⟩
    have hmem : t ∈ missingTablesOf tables requiredSales := by
      simp [missingTablesOf, List.mem_filter, ht, Option.isNone_iff_eq_none, htnone]
    have hne : ¬ (missingTablesOf tables requiredSales).isEmpty = true := by
      intro hemp
      rw [List.isEmpty_iff] at hemp
      rw [hemp] at hmem
      cases hmem
    constructor
    · simp only [sales_line_items]
      rw [if_neg hne]
    · intro t2 ht2
      simp [missingTablesOf, List.mem_filter, ht2, Option.isNone_iff_eq_none]
  · intro hall ms heq
    have hemp : (missingTablesOf tables requiredSales).isEmpty = true := by
      rw [List.isEmpty_iff]
      simp only [missingTablesOf]
      rw [List.filter_eq_nil_iff]
      intro t ht
      simp only [decide_eq_true_eq, Option.isNone_iff_eq_none]
      exact hall t ht
    simp only [sales_line_items] at heq
    rw [if_pos hemp] at heq
    obtain ⟨c, hc⟩ := salesCore_error heq
    cases hc

/-- Witness for C7: removing `genre` yields the error naming exactly
`genre`; the full dictionary yields no missing-table error. -/
theorem sales_line_items_missing_table_error_witness :
    sales_line_items wTablesNoGenre = .error (.missingTables ["genre"]) ∧
    ∀ ms, sales_line_items wTables ≠ .error (.missingTables ms) := by
  constructor
  · have h := (sales_line_items_missing_table_error wTablesNoGenre).1 ⟨"genre", by decide, rfl⟩
    have hmt : missingTablesOf wTablesNoGenre requiredSales = ["genre"] := by decide
    rw [hmt] at h
    exact h.1
  · exact (sales_line_items_missing_table_error wTables).2 (by decide)

/-- C1 (code bug): with `customer` present (carrying `SupportRepId`)
but `employee` absent, `customers_dim` raises the missing-table
`KeyError` naming `employee` instead of returning the customer rows. -/
theorem customers_dim_requires_employee :
    customers_dim custOnlyTables = .error (.missingTables ["employee"]) ∧
    (ModelError.missingTables ["employee"]).render = "Missing required tables: employee" := by
  constructor
  · decide
  · rfl

theorem LTProp_setCol_LT {df : DataFrame}
    (hUP : "UnitPrice" ∈ df.cols) (hQ : "Quantity" ∈ df.cols) :
    LTProp (setCol df "LineTotal"
      (List.zipWith valMul (df.colVals "UnitPrice") (df.colVals "Quantity"))) := by
  refine ⟨setCol_target_mem df _ _, mem_setCol_cols _ _ hUP, mem_setCol_cols _ _ hQ, ?_⟩
  intro r hr
  simp only [setCol] at hr ⊢
  obtain ⟨i, hi1, hi2, hreq⟩ := mem_zipWith_idx hr
  subst hreq
  set newCols := if "LineTotal" ∈ df.cols then df.cols else df.cols ++ ["LineTotal"]
    with hnc
  have hLT : "LineTotal" ∈ newCols := by
    rw [hnc]; split
    · assumption
    · simp
  have hUP2 : "UnitPrice" ∈ newCols := by
    rw [hnc]; split
    · exact hUP
    · exact List.mem_append_left _ hUP
  have hQ2 : "Quantity" ∈ newCols := by
    rw [hnc]; split
    · exact hQ
    · exact List.mem_append_left _ hQ
  rw [getVal_map _ _ _ hLT, getVal_map _ _ _ hUP2, getVal_map _ _ _ hQ2]
  simp only [if_pos rfl, if_neg (by decide : ¬ ("UnitPrice" = "LineTotal")),
    if_neg (by decide : ¬ ("Quantity" = "LineTotal"))]
  rw [List.getElem_zipWith]
  simp [DataFrame.colVals, List.getElem_map]

theorem LTProp_setCol_other {df : DataFrame} (hP : LTProp df) {c : String} (vals : List Val)
    (hc1 : c ≠ "LineTotal") (hc2 : c ≠ "UnitPrice") (hc3 : c ≠ "Quantity") :
    LTProp (setCol df c vals) := by
  obtain ⟨hLT, hUP, hQ, hrows⟩ := hP
  refine ⟨mem_setCol_cols _ _ hLT, mem_setCol_cols _ _ hUP, mem_setCol_cols _ _ hQ, ?_⟩
  intro r hr
  simp only [setCol] at hr ⊢
  obtain ⟨i, hi1, hi2, hreq⟩ := mem_zipWith_idx hr
  subst hreq
  set newCols := if c ∈ df.cols then df.cols else df.cols ++ [c] with hnc
  have hLT2 : "LineTotal" ∈ newCols := by
    rw [hnc]; split
    · exact hLT
    · exact List.mem_append_left _ hLT
  have hUP2 : "UnitPrice" ∈ newCols := by
    rw [hnc]; split
    · exact hUP
    · exact List.mem_append_left _ hUP
  have hQ2 : "Quantity" ∈ newCols := by
    rw [hnc]; split
    · exact hQ
    · exact List.mem_append_left _ hQ
  rw [getVal_map _ _ _ hLT2, getVal_map _ _ _ hUP2, getVal_map _ _ _ hQ2]
  rw [if_neg (fun h => hc1 h.symm), if_neg (fun h => hc2 h.symm),
    if_neg (fun h => hc3 h.symm)]
  exact hrows df.rows[i] (List.getElem_mem hi1)

theorem LTProp_addDateFeatures {df : DataFrame} (hP : LTProp df) :
    LTProp (addDateFeatures df) := by
  unfold addDateFeatures
  split
  · exact LTProp_setCol_other
      (LTProp_setCol_other
        (LTProp_setCol_other
          (LTProp_setCol_other
            (LTProp_setCol_other
              (LTProp_setCol_other hP _ (by decide) (by decide) (by decide))
              _ (by decide) (by decide) (by decide))
            _ (by decide) (by decide) (by decide))
          _ (by decide) (by decide) (by decide))
        _ (by decide) (by decide) (by decide))
      _ (by decide) (by decide) (by decide)
  · exact hP

theorem LTProp_selectCols {df : DataFrame} (hP : LTProp df) {cs : List String}
    (h1 : "LineTotal" ∈ cs) (h2 : "UnitPrice" ∈ cs) (h3 : "Quantity" ∈ cs) :
    LTProp (selectCols df cs) := by
  obtain ⟨hLT, hUP, hQ, hrows⟩ := hP
  have hkeep : ∀ c2, c2 ∈ cs → c2 ∈ df.cols →
      c2 ∈ cs.filter (fun c => decide (c ∈ df.cols)) := by
    intro c2 hc2 hcd
    rw [List.mem_filter]
    exact ⟨hc2, by simpa using hcd⟩
  refine ⟨hkeep _ h1 hLT, hkeep _ h2 hUP, hkeep _ h3 hQ, ?_⟩
  intro r hr
  simp only [selectCols] at hr ⊢
  obtain ⟨r0, hr0, hreq⟩ := List.mem_map.mp hr
  subst hreq
  rw [getVal_map _ _ _ (hkeep _ h1 hLT), getVal_map _ _ _ (hkeep _ h2 hUP),
    getVal_map _ _ _ (hkeep _ h3 hQ)]
  exact hrows r0 hr0

/-- C6: every row of the `sales_line_items` output satisfies
`LineTotal = UnitPrice * Quantity` exactly. -/
theorem lineTotal_eq_product (tables : Tables) {df : DataFrame}
    (h : sales_line_items tables = .ok df) :
    ∀ r ∈ df.rows, getVal df.cols r "LineTotal" =
      valMul (getVal df.cols r "UnitPrice") (getVal df.cols r "Quantity") := by
  simp only [sales_line_items] at h
  split at h
  case isFalse => simp at h
  case isTrue =>
  obtain ⟨d1, d2, d3, d4, d5, d6, d7, up, qt, e1, e2, e3, e4, e5, e6, e7, e8, e9, heq⟩ :=
    salesCore_ok h
  obtain ⟨hup, hUPmem⟩ := requireCol_ok e8
  obtain ⟨hqt, hQmem⟩ := requireCol_ok e9
  subst heq hup hqt
  exact (LTProp_selectCols
    (LTProp_addDateFeatures (LTProp_setCol_LT hUPmem hQmem))
    (by decide) (by decide) (by decide)).2.2.2

/-- Witness for C6 on the one-row instance. -/
theorem lineTotal_eq_product_witness :
    (sales_line_items wTables).isOk = true ∧
    ((sales_line_items wTables).map (fun d =>
      d.rows.all (fun r => decide (getVal d.cols r "LineTotal" =
        valMul (getVal d.cols r "UnitPrice") (getVal d.cols r "Quantity"))))) = .ok true := by
  refine ⟨by decide, ?_⟩
  cases hE : sales_line_items wTables with
  | error e =>
    have hOk : (sales_line_items wTables).isOk = true := by decide
    rw [hE] at hOk
    simp [Except.isOk, Except.toBool] at hOk
  | ok d =>
    have hprod := lineTotal_eq_product wTables hE
    simp only [Except.map, Except.ok.injEq]
    rw [List.all_eq_true]
    intro r hr
    simpa using hprod r hr

/-! ### Group/sum lemmas for the analyzer -/

theorem zipWith_self {α β : Type} (f : α → α → β) (l : List α) :
    List.zipWith f l l = l.map (fun a => f a a) := by
  induction l with
  | nil => rfl
  | cons a rest ih => simp [ih]

/-- `setCol` with per-row computed values is an elementwise row map. -/
theorem setCol_map_rows (df : DataFrame) (c : String) (g : List Val → Val) :
    (setCol df c (df.rows.map g)).rows =
      df.rows.map (fun r => (if c ∈ df.cols then df.cols else df.cols ++ [c]).map
        (fun c2 => if c2 = c then g r else getVal df.cols r c2)) := by
  simp only [setCol, List.zipWith_map_right]
  exact zipWith_self _ _

theorem colVals_map (df : DataFrame) (c : String) (g : Val → Val) :
    (df.colVals c).map g = df.rows.map (fun r => g (getVal df.cols r c)) := by
  simp [DataFrame.colVals, List.map_map, Function.comp]

theorem sum_filter_or {α : Type} (g : α → ℚ) (p q : α → Bool) (l : List α)
    (hdisj : ∀ r ∈ l, ¬(p r = true ∧ q r = true)) :
    ((l.filter (fun r => p r || q r)).map g).sum
      = ((l.filter p).map g).sum + ((l.filter q).map g).sum := by
  induction l with
  | nil => simp
  | cons a rest ih =>
    have hd := hdisj a (List.mem_cons_self a rest)
    have ihr := ih (fun r hr => hdisj r (List.mem_cons_of_mem a hr))
    by_cases hp : p a = true
    · by_cases hq : q a = true
      · exact absurd ⟨hp, hq⟩ hd
      · simp only [List.filter_cons, hp, hq]
        simp only [Bool.true_or, if_true]
        simp [ihr]
        ring
    · by_cases hq : q a = true
      · simp only [List.filter_cons, hp, hq]
        simp only [Bool.false_or, if_true]
        simp [ihr]
        ring
      · simp only [List.filter_cons, hp, hq]
        simp [ihr]

/-- Summing group sums over pairwise-distinct keys counts exactly the
rows whose key is among the keys. -/
theorem sum_groups_eq {α : Type} (g : α → ℚ) (f : α → Val) (l : List α)
    (keys : List Val) (hnd : keys.Nodup) :
    ((keys.map (fun k => ((l.filter (fun r => decide (f r = k))).map g).sum)).sum)
      = ((l.filter (fun r => decide (f r ∈ keys))).map g).sum := by
  induction keys with
  | nil => simp
  | cons k ks ih =>
    obtain ⟨hk, hnd2⟩ := List.nodup_cons.mp hnd
    have hco : l.filter (fun r => decide (f r ∈ k :: ks))
        = l.filter (fun r => decide (f r = k) || decide (f r ∈ ks)) := by
      apply List.filter_congr
      intro x _
      simp [List.mem_cons]
    rw [hco, sum_filter_or g _ _ l ?_, List.map_cons, List.sum_cons, ih hnd2]
    intro r _ ⟨h1, h2⟩
    simp only [decide_eq_true_eq] at h1 h2
    exact hk (h1 ▸ h2)

theorem mem_groupKeys {df : DataFrame} {key : String} {v : Val} :
    v ∈ groupKeys df key ↔ (v ∈ df.colVals key ∧ v ≠ Val.null) := by
  unfold groupKeys
  rw [(List.perm_insertionSort _ _).mem_iff, List.mem_dedup, List.mem_filter]
  simp

theorem groupKeys_nodup (df : DataFrame) (key : String) : (groupKeys df key).Nodup :=
  ((List.perm_insertionSort _ _).nodup_iff).mpr (List.nodup_dedup _)

theorem mem_groupSum {df : DataFrame} {key val : String} {p : Val × ℚ}
    (hp : p ∈ groupSum df key val) :
    p.1 ∈ groupKeys df key ∧
    p.2 = sumNum ((df.rows.filter (fun r => decide (getVal df.cols r key = p.1))).map
      (fun r => getVal df.cols r val)) := by
  unfold groupSum at hp
  obtain ⟨k, hk, hpeq⟩ := List.mem_map.mp hp
  rw [← hpeq]
  exact ⟨hk, rfl⟩

/-- Facts recovered from a successful `ChinookAnalyzer` construction. -/
theorem analyzerInit_ok {sales : DataFrame} {cat : Option DataFrame} {a : Analyzer}
    (h : analyzerInit sales cat = .ok a) :
    a.sales_df = coerceInvoiceDate sales ∧ a.catalog_df = cat ∧
    "InvoiceDate" ∈ sales.cols ∧ "LineTotal" ∈ sales.cols := by
  simp only [analyzerInit] at h
  split at h
  case isTrue hemp =>
    rw [Except.ok.injEq] at h
    have hpres : ∀ c ∈ ["InvoiceDate", "LineTotal"], c ∈ sales.cols := by
      intro c hc
      by_contra hnc
      have : c ∈ List.filter (fun c => decide (c ∉ sales.cols)) ["InvoiceDate", "LineTotal"] := by
        rw [List.mem_filter]
        exact ⟨hc, by simpa using hnc⟩
      rw [List.isEmpty_iff] at hemp
      rw [hemp] at this
      cases this
    exact ⟨by rw [← h], by rw [← h], hpres _ (by simp), hpres _ (by simp)⟩
  case isFalse => simp at h

/-- Every `InvoiceDate` cell of the coerced frame is a date or null. -/
theorem coerced_cell_shape (sales : DataFrame) :
    ∀ r ∈ (coerceInvoiceDate sales).rows,
      getVal (coerceInvoiceDate sales).cols r "InvoiceDate" = Val.null ∨
      ∃ y m d, getVal (coerceInvoiceDate sales).cols r "InvoiceDate" = .date y m d := by
  intro r hr
  unfold coerceInvoiceDate at hr ⊢
  rw [colVals_map] at hr ⊢
  rw [setCol_map_rows] at hr
  obtain ⟨r0, hr0, hreq⟩ := List.mem_map.mp hr
  subst hreq
  have hmem : "InvoiceDate" ∈
      (if "InvoiceDate" ∈ sales.cols then sales.cols else sales.cols ++ ["InvoiceDate"]) := by
    split
    · assumption
    · simp
  have hcols : (setCol sales "InvoiceDate"
      (sales.rows.map (fun r => toDatetime (getVal sales.cols r "InvoiceDate")))).cols
      = (if "InvoiceDate" ∈ sales.cols then sales.cols else sales.cols ++ ["InvoiceDate"]) := by
    simp only [setCol]
  rw [hcols, getVal_map _ _ _ hmem, if_pos rfl]
  cases hv : getVal sales.cols r0 "InvoiceDate" with
  | date y m d => exact Or.inr ⟨y, m, d, by simp [toDatetime]⟩
  | str s =>
    simp only [toDatetime]
    cases hp : parseDate s with
    | none => exact Or.inl rfl
    | some t => exact Or.inr ⟨t.1, t.2.1, t.2.2, by simp⟩
  | null => exact Or.inl (by simp [toDatetime])
  | num q => exact Or.inl (by simp [toDatetime])
  | sqrtOf q => exact Or.inl (by simp [toDatetime])

theorem getVal_mem_colVals {df : DataFrame} {r : List Val} (c : String) (hr : r ∈ df.rows) :
    getVal df.cols r c ∈ df.colVals c :=
  List.mem_map_of_mem _ hr

/-- The `Month`-augmented frame inside `revenue_by_month`, described
as an elementwise transformation of the held sales rows. -/
theorem monthFrame_facts (df0 : DataFrame) (hLT : "LineTotal" ∈ df0.cols) :
    ∃ F : List Val → List Val,
      (setCol df0 "Month" ((df0.colVals "InvoiceDate").map monthStart)).rows
        = df0.rows.map F ∧
      (∀ r0, getVal (setCol df0 "Month" ((df0.colVals "InvoiceDate").map monthStart)).cols
        (F r0) "Month" = monthStart (getVal df0.cols r0 "InvoiceDate")) ∧
      (∀ r0, getVal (setCol df0 "Month" ((df0.colVals "InvoiceDate").map monthStart)).cols
        (F r0) "LineTotal" = getVal df0.cols r0 "LineTotal") := by
  set nc := if "Month" ∈ df0.cols then df0.cols else df0.cols ++ ["Month"] with hnc
  have hMmem : "Month" ∈ nc := by
    rw [hnc]; split
    · assumption
    · simp
  have hLTmem : "LineTotal" ∈ nc := by
    rw [hnc]; split
    · exact hLT
    · exact List.mem_append_left _ hLT
  have hcols : (setCol df0 "Month" ((df0.colVals "InvoiceDate").map monthStart)).cols = nc := by
    simp only [setCol, hnc]
  refine ⟨fun r0 => nc.map (fun c2 => if c2 = "Month"
      then monthStart (getVal df0.cols r0 "InvoiceDate") else getVal df0.cols r0 c2), ?_, ?_, ?_⟩
  · rw [colVals_map, setCol_map_rows, ← hnc]
  · intro r0
    rw [hcols, getVal_map _ _ _ hMmem, if_pos rfl]
  · intro r0
    rw [hcols, getVal_map _ _ _ hLTmem, if_neg (by decide)]

/-- C9: every group returned by `revenue_by_month` has a non-null month
key, its revenue is exactly the sum of `LineTotal` over the rows whose
(coerced) timestamp truncates to that month, and null-timestamp rows
match no returned group. -/
theorem revenue_by_month_drops_null_dates (sales : DataFrame) (cat : Option DataFrame)
    {a : Analyzer} (h : analyzerInit sales cat = .ok a) :
    ∀ p ∈ revenue_by_month a,
      p.1 ≠ Val.null ∧
      p.2 = sumNum ((a.sales_df.rows.filter
        (fun r => decide (monthStart (getVal a.sales_df.cols r "InvoiceDate") = p.1))).map
          (fun r => getVal a.sales_df.cols r "LineTotal")) ∧
      ∀ r ∈ a.sales_df.rows, getVal a.sales_df.cols r "InvoiceDate" = Val.null →
        monthStart (getVal a.sales_df.cols r "InvoiceDate") ≠ p.1 := by
  intro p hp
  obtain ⟨hsdf, _, hIDs, hLTs⟩ := analyzerInit_ok h
  have hLT : "LineTotal" ∈ a.sales_df.cols := by
    rw [hsdf]
    exact mem_setCol_cols _ _ hLTs
  unfold revenue_by_month at hp
  replace hp := (List.perm_insertionSort monthLe _).subset hp
  obtain ⟨hkmem, hval⟩ := mem_groupSum hp
  have hknn : p.1 ≠ Val.null := (mem_groupKeys.mp hkmem).2
  obtain ⟨F, hrows, hgetM, hgetLT⟩ := monthFrame_facts a.sales_df hLT
  refine ⟨hknn, ?_, ?_⟩
  · rw [hval, hrows, List.filter_map, List.map_map]
    congr 1
    have hfc : a.sales_df.rows.filter
        ((fun r => decide (getVal (setCol a.sales_df "Month"
          ((a.sales_df.colVals "InvoiceDate").map monthStart)).cols r "Month" = p.1)) ∘ F)
        = a.sales_df.rows.filter
          (fun r => decide (monthStart (getVal a.sales_df.cols r "InvoiceDate") = p.1)) := by
      apply List.filter_congr
      intro r0 _
      simp only [Function.comp_apply, hgetM]
    rw [hfc]
    apply List.map_congr_left
    intro r0 _
    simp only [Function.comp_apply, hgetLT]
  · intro r hr hnull
    rw [hnull]
    simp only [monthStart]
    exact fun heq => hknn heq.symm

/-- C5 (amended): the revenue totals returned by `revenue_by_month`
sum to the `LineTotal` total over the rows with a non-null (coerced)
invoice timestamp. -/
theorem revenue_by_month_total_nonnull (sales : DataFrame) (cat : Option DataFrame)
    {a : Analyzer} (h : analyzerInit sales cat = .ok a) :
    ((revenue_by_month a).map Prod.snd).sum =
      sumNum ((a.sales_df.rows.filter
        (fun r => decide (getVal a.sales_df.cols r "InvoiceDate" ≠ Val.null))).map
        (fun r => getVal a.sales_df.cols r "LineTotal")) := by
  obtain ⟨hsdf, _, hIDs, hLTs⟩ := analyzerInit_ok h
  have hLT : "LineTotal" ∈ a.sales_df.cols := by
    rw [hsdf]
    exact mem_setCol_cols _ _ hLTs
  obtain ⟨F, hrows, hgetM, hgetLT⟩ := monthFrame_facts a.sales_df hLT
  unfold revenue_by_month
  rw [((List.perm_insertionSort monthLe _).map Prod.snd).sum_eq]
  unfold groupSum
  rw [List.map_map]
  set dfM := setCol a.sales_df "Month" ((a.sales_df.colVals "InvoiceDate").map monthStart)
    with hdfM
  have hsum : ∀ k, (Prod.snd ∘ fun k => (k,
      sumNum ((dfM.rows.filter (fun r => decide (getVal dfM.cols r "Month" = k))).map
        (fun r => getVal dfM.cols r "LineTotal")))) k
      = ((dfM.rows.filter (fun r => decide (getVal dfM.cols r "Month" = k))).map
        (fun r => numOf (getVal dfM.cols r "LineTotal"))).sum := by
    intro k
    simp [sumNum, List.map_map, Function.comp_def]
  rw [List.map_congr_left (fun k _ => hsum k)]
  rw [sum_groups_eq _ _ _ _ (groupKeys_nodup dfM "Month")]
  have hfc : dfM.rows.filter (fun r => decide (getVal dfM.cols r "Month" ∈ groupKeys dfM "Month"))
      = dfM.rows.filter (fun r => decide (getVal dfM.cols r "Month" ≠ Val.null)) := by
    apply List.filter_congr
    intro r0 hr0
    have : getVal dfM.cols r0 "Month" ∈ groupKeys dfM "Month" ↔
        getVal dfM.cols r0 "Month" ≠ Val.null := by
      rw [mem_groupKeys]
      exact ⟨fun h2 => h2.2, fun h2 => ⟨getVal_mem_colVals _ hr0, h2⟩⟩
    simp [this]
  rw [hfc, hrows, List.filter_map, List.map_map]
  have hcoerce : ∀ r0 ∈ a.sales_df.rows,
      (decide (monthStart (getVal a.sales_df.cols r0 "InvoiceDate") ≠ Val.null))
        = (decide (getVal a.sales_df.cols r0 "InvoiceDate" ≠ Val.null)) := by
    intro r0 hr0
    have hshape := coerced_cell_shape sales r0 (by rw [← hsdf]; exact hr0)
    rw [← hsdf] at hshape
    rcases hshape with hnull | ⟨y, m, d, hdate⟩
    · rw [hnull]
      simp [monthStart]
    · rw [hdate]
      simp [monthStart]
  have hfc2 : a.sales_df.rows.filter
      ((fun r => decide (getVal dfM.cols r "Month" ≠ Val.null)) ∘ F)
      = a.sales_df.rows.filter
        (fun r => decide (getVal a.sales_df.cols r "InvoiceDate" ≠ Val.null)) := by
    apply List.filter_congr
    intro r0 hr0
    simp only [Function.comp_apply, hgetM]
    exact hcoerce r0 hr0
  rw [hfc2]
  simp only [sumNum, List.map_map]
  apply congrArg
  apply List.map_congr_left
  intro r0 _
  simp only [Function.comp_apply, hgetLT]

/-- C5 counterexample: with a single null-timestamp row carrying
`LineTotal = 5`, the returned month totals sum to 0 while the
full-table `LineTotal` sum is 5. -/
theorem revenue_by_month_total_cex :
    analyzerInit cexSales none = .ok cexAnalyzer ∧
    ((revenue_by_month cexAnalyzer).map Prod.snd).sum = 0 ∧
    sumNum (cexAnalyzer.sales_df.colVals "LineTotal") = 5 ∧
    (0 : ℚ) ≠ 5 := by
  refine ⟨by with_unfolding_all decide, by with_unfolding_all decide,
    by with_unfolding_all decide, by with_unfolding_all decide⟩

set_option maxRecDepth 100000 in
/-- Witness for the amended C5 on a two-row frame (one null date). -/
theorem revenue_by_month_total_nonnull_witness :
    ((revenue_by_month wAnalyzer2).map Prod.snd).sum =
      sumNum ((wAnalyzer2.sales_df.rows.filter
        (fun r => decide (getVal wAnalyzer2.sales_df.cols r "InvoiceDate" ≠ Val.null))).map
        (fun r => getVal wAnalyzer2.sales_df.cols r "LineTotal")) ∧
    ((revenue_by_month wAnalyzer2).map Prod.snd).sum = 5 :=
  ⟨revenue_by_month_total_nonnull wSales2 none
      (show analyzerInit wSales2 none = Except.ok wAnalyzer2 by with_unfolding_all decide),
    by with_unfolding_all decide⟩

set_option maxRecDepth 100000 in
/-- Witness for C9: the only returned group of `wAnalyzer2` is January
2009 with revenue 5 (the null-dated row's 7 is not counted). -/
theorem revenue_by_month_drops_null_dates_witness :
    revenue_by_month wAnalyzer2 = [(Val.date 2009 1 1, (5 : ℚ))] ∧
    (Val.date 2009 1 1 : Val) ≠ Val.null := by
  have hlist : revenue_by_month wAnalyzer2 = [(Val.date 2009 1 1, (5 : ℚ))] := by
    with_unfolding_all decide
  have hmem : (Val.date 2009 1 1, (5 : ℚ)) ∈ revenue_by_month wAnalyzer2 := by
    rw [hlist]
    exact List.mem_singleton.mpr rfl
  exact ⟨hlist,
    ((revenue_by_month_drops_null_dates wSales2 none
        (show analyzerInit wSales2 none = Except.ok wAnalyzer2 by with_unfolding_all decide))
      (Val.date 2009 1 1, (5 : ℚ)) hmem).1⟩

/-- C10: null catalog titles contribute no words — removing the
null-`Name` rows first yields the identical word-frequency result. -/
theorem top_words_ignores_null_titles (a : Analyzer) (n : ℕ) (sw : Option (List String)) :
    top_words_in_track_titles ⟨a.sales_df, a.catalog_df.map dropNullNames⟩ n sw
      = top_words_in_track_titles a n sw := by
  cases hc : a.catalog_df with
  | none => simp [top_words_in_track_titles, hc]
  | some cat =>
    simp only [top_words_in_track_titles, hc, Option.map_some']
    have hcols : (dropNullNames cat).cols = cat.cols := rfl
    rw [hcols]
    split
    · have hcv : (dropNullNames cat).colVals "Name"
          = (cat.colVals "Name").filter (fun v => decide (v ≠ Val.null)) := by
        simp only [dropNullNames, DataFrame.colVals, List.filter_map]
        rfl
      rw [hcv, List.filter_filter]
      simp
    · rfl

theorem foldl_max_facts (l : List ℤ) (a : ℤ) :
    a ≤ l.foldl max a ∧ (∀ x ∈ l, x ≤ l.foldl max a) ∧
    (l.foldl max a = a ∨ l.foldl max a ∈ l) := by
  induction l generalizing a with
  | nil => simp
  | cons b t ih =>
    obtain ⟨ih1, ih2, ih3⟩ := ih (max a b)
    refine ⟨le_trans (le_max_left a b) ih1, ?_, ?_⟩
    · intro x hx
      rcases List.mem_cons.mp hx with rfl | hx
      · exact le_trans (le_max_right a x) ih1
      · exact ih2 x hx
    · rcases ih3 with heq | hmem
      · rcases max_choice a b with hab | hab
        · left; rw [List.foldl_cons, heq, hab]
        · right; rw [List.foldl_cons, heq, hab]; exact List.mem_cons_self b t
      · right; exact List.mem_cons_of_mem b hmem

theorem le_maxZ {l : List ℤ} {x : ℤ} (hx : x ∈ l) : x ≤ maxZ l :=
  (foldl_max_facts l (l.headD 0)).2.1 x hx

theorem maxZ_mem {l : List ℤ} (h : l ≠ []) : maxZ l ∈ l := by
  rcases (foldl_max_facts l (l.headD 0)).2.2 with heq | hmem
  · rw [maxZ, heq]
    cases l with
    | nil => exact absurd rfl h
    | cons a t => exact List.mem_cons_self a t
  · exact hmem

theorem dedupConsec_length_le (l : List ℚ) : (dedupConsec l).length ≤ l.length := by
  induction l with
  | nil => simp [dedupConsec]
  | cons a t ih =>
    cases t with
    | nil => simp [dedupConsec]
    | cons b t2 =>
      rw [dedupConsec]
      split
      · exact le_trans ih (by simp)
      · simpa using ih

theorem codeOf_le (uedges : List ℚ) (v : ℚ) :
    codeOf uedges v ≤ uedges.length - 2 := by
  unfold codeOf
  cases hf : (List.range (uedges.length - 1)).find? (fun j => decide (v ≤ uedges.getD (j + 1) 0)) with
  | none => simp
  | some j =>
    have hj := List.find?_some hf
    have hjmem := List.mem_range.mp (List.mem_of_find?_eq_some hf)
    simp only [Option.getD_some]
    omega

theorem qcutEdges_length (xs : List ℚ) (q : ℕ) : (qcutEdges xs q).length = q + 1 := by
  simp [qcutEdges]

/-- `pd.qcut` raises only on the empty series. -/
theorem qcutSeries_error_nil {xs : List ℚ} {q : ℕ} {e : ModelError}
    (h : qcutSeries xs q = .error e) : xs = [] := by
  simp only [qcutSeries] at h
  split at h
  · rw [← List.isEmpty_iff]
    assumption
  · split at h <;> simp at h

theorem qcutSeries_ok_cases {xs : List ℚ} {q : ℕ} {bins : List (Option ℕ)}
    (h : qcutSeries xs q = .ok bins) :
    xs ≠ [] ∧
    (((dedupConsec (qcutEdges xs q)).length < 2 ∧
        bins = xs.map (fun _ => (none : Option ℕ))) ∨
      (2 ≤ (dedupConsec (qcutEdges xs q)).length ∧
        bins = xs.map (fun v => some (codeOf (dedupConsec (qcutEdges xs q)) v)))) := by
  simp only [qcutSeries] at h
  split at h
  · simp at h
  · constructor
    · intro hnil
      subst hnil
      simp_all
    · split at h
      · left
        exact ⟨by assumption, by simpa using h.symm⟩
      · right
        exact ⟨by omega, by simpa using h.symm⟩

/-- `astype(int)` succeeds only when no code is NaN. -/
theorem qcutPost_ok_all_some {rev : Bool} {bins : List (Option ℕ)} {ys : List ℤ}
    (h : qcutPost rev bins = .ok ys) : bins.all (fun o => o.isSome) = true := by
  simp only [qcutPost] at h
  cases rev with
  | false =>
    simp only [Bool.false_eq_true, if_false] at h
    split at h
    case isTrue hall => simpa [List.all_map, Function.comp_def] using hall
    case isFalse => simp at h
  | true =>
    simp only [if_true] at h
    cases hopt : optMax (bins.map (Option.map (fun c => Int.ofNat c + 1))) with
    | none =>
      rw [hopt] at h
      split at h
      case isTrue hall =>
        cases bins with
        | nil => rfl
        | cons b bt => simp at hall
      case isFalse => simp at h
    | some m =>
      rw [hopt] at h
      split at h
      case isTrue hall => simpa [List.all_map, Function.comp_def] using hall
      case isFalse => simp at h

/-- On all-some codes bounded by 4, the post-processing succeeds with a
score that is a function of the code alone, valued in 1..5. -/
theorem qcutPost_map_some {rev : Bool} {cs : List ℕ} {ys : List ℤ}
    (hb : ∀ c ∈ cs, c ≤ 4) (h : qcutPost rev (cs.map some) = .ok ys) :
    ∃ f : ℕ → ℤ, ys = cs.map f ∧ ∀ c ∈ cs, 1 ≤ f c ∧ f c ≤ 5 := by
  cases rev with
  | false =>
    have hpost : qcutPost false (cs.map some) = .ok (cs.map (fun c => Int.ofNat c + 1)) := by
      simp only [qcutPost, Bool.false_eq_true, if_false, List.map_map]
      rw [if_pos ?_]
      · congr 1
      · show ((cs.map (fun c => some (Int.ofNat c + 1))).all (fun o => o.isSome)) = true
        simp [List.all_map, Function.comp_def]
    rw [hpost, Except.ok.injEq] at h
    refine ⟨fun c => Int.ofNat c + 1, h.symm, ?_⟩
    intro c hc
    have := hb c hc
    simp only [Int.ofNat_eq_coe]
    omega
  | true =>
    have hfm : ∀ (l : List ℕ), (l.map (fun c => some (Int.ofNat c + 1))).filterMap id
        = l.map (fun c => Int.ofNat c + 1) := by
      intro l
      induction l with
      | nil => rfl
      | cons a t ih => simp only [List.map_cons, List.filterMap_cons, id_eq, ih]
    cases cs with
    | nil =>
      have hpost : qcutPost true (([] : List ℕ).map some) = .ok [] := by
        simp [qcutPost, optMax]
      rw [hpost, Except.ok.injEq] at h
      exact ⟨fun _ => 0, by rw [← h]; rfl, by simp⟩
    | cons c0 ct =>
      set m := maxZ ((c0 :: ct).map (fun c => Int.ofNat c + 1)) with hm
      have hopt : optMax ((c0 :: ct).map ((Option.map (fun c => Int.ofNat c + 1)) ∘ some))
          = some m := by
        show optMax ((c0 :: ct).map (fun c => some (Int.ofNat c + 1))) = some m
        simp only [optMax, hfm]
        rw [if_neg (by simp)]
      have hpost : qcutPost true ((c0 :: ct).map some)
          = .ok ((c0 :: ct).map (fun c => m + 1 - (Int.ofNat c + 1))) := by
        simp only [qcutPost, eq_self_iff_true, if_true, List.map_map, hopt]
        rw [if_pos ?_]
        · congr 1
        · show (((c0 :: ct).map (fun c => some (m + 1 - (Int.ofNat c + 1)))).all
            (fun o => o.isSome)) = true
          simp [List.all_map, Function.comp_def]
      rw [hpost, Except.ok.injEq] at h
      have hmmem : m ∈ (c0 :: ct).map (fun c => Int.ofNat c + 1) := maxZ_mem (by simp)
      obtain ⟨cm, hcm, hcmeq⟩ := List.mem_map.mp hmmem
      have hcmle := hb cm hcm
      refine ⟨fun c => m + 1 - (Int.ofNat c + 1), h.symm, ?_⟩
      intro c hc
      have hle : Int.ofNat c + 1 ≤ m := le_maxZ (List.mem_map_of_mem _ hc)
      rw [← hcmeq] at hle ⊢
      simp only [Int.ofNat_eq_coe] at hle ⊢
      omega

/-- A successful `safe_qcut` always took the value-based cut (the
fallback is reachable only from the empty series, where it fails too),
so each score is a fixed function of the raw value, valued 1..5 on the
series members. -/
theorem safe_qcut_ok_val {xs : List ℚ} {rev : Bool} {ys : List ℤ}
    (h : safe_qcut xs rev = .ok ys) :
    ∃ g : ℚ → ℤ, ys = xs.map g ∧ ∀ v ∈ xs, 1 ≤ g v ∧ g v ≤ 5 := by
  unfold safe_qcut at h
  cases h1 : qcutSeries xs 5 with
  | error e =>
    rw [h1] at h
    simp only at h
    have hxe : xs = [] := qcutSeries_error_nil h1
    subst hxe
    rw [show qcutSeries (rankFirst []) 5
        = Except.error (ModelError.valueError "bins must increase monotonically") from rfl] at h
    simp at h
  | ok bins =>
    rw [h1] at h
    simp only at h
    obtain ⟨hne, hcases⟩ := qcutSeries_ok_cases h1
    rcases hcases with ⟨_, hbn⟩ | ⟨hge, hbn⟩
    · exfalso
      subst hbn
      have hall := qcutPost_ok_all_some h
      cases xs with
      | nil => exact hne rfl
      | cons x t => simp at hall
    · subst hbn
      have hceil : ∀ c ∈ xs.map (codeOf (dedupConsec (qcutEdges xs 5))), c ≤ 4 := by
        intro c hc
        obtain ⟨v, _, hveq⟩ := List.mem_map.mp hc
        have hh1 := codeOf_le (dedupConsec (qcutEdges xs 5)) v
        have hh2 := dedupConsec_length_le (qcutEdges xs 5)
        rw [qcutEdges_length] at hh2
        omega
      rw [show xs.map (fun v => some (codeOf (dedupConsec (qcutEdges xs 5)) v))
          = (xs.map (codeOf (dedupConsec (qcutEdges xs 5)))).map some from by
        rw [List.map_map]; rfl] at h
      obtain ⟨f, hys, hbnd⟩ := qcutPost_map_some hceil h
      refine ⟨fun v => f (codeOf (dedupConsec (qcutEdges xs 5)) v), ?_, ?_⟩
      · rw [hys, List.map_map]
        rfl
      · intro v hv
        exact hbnd _ (List.mem_map_of_mem _ hv)

/-- Successful runs of `rfm_analysis` decompose into the three score
assignments over the sorted customer keys. -/
theorem rfm_ok {a : Analyzer} {rows : List RFMRow} (h : rfm_analysis a = .ok rows) :
    ∃ rS fS mS,
      safe_qcut ((customersOf a.sales_df).map
        (fun c => (recencyOf a.sales_df c : ℚ))) true = .ok rS ∧
      safe_qcut ((customersOf a.sales_df).map
        (fun c => (frequencyOf a.sales_df c : ℚ))) false = .ok fS ∧
      safe_qcut ((customersOf a.sales_df).map
        (fun c => monetaryOf a.sales_df c)) false = .ok mS ∧
      rows = List.insertionSort rfmLe ((List.range (customersOf a.sales_df).length).map
        (rfmBase a.sales_df (customersOf a.sales_df) rS fS mS)) := by
  simp only [rfm_analysis] at h
  split at h
  · split at h
    · simp at h
    · obtain ⟨rS, e1, h⟩ := except_bind_ok h
      obtain ⟨fS, e2, h⟩ := except_bind_ok h
      obtain ⟨mS, e3, h⟩ := except_bind_ok h
      simp only [pure, Except.pure, Except.ok.injEq] at h
      exact ⟨rS, fS, mS, e1, e2, e3, h.symm⟩
  · simp at h

/-- In a duplicate-free list, exactly one index holds any member
value, and none holds a non-member. -/
theorem count_getD_nodup {l : List Val} (h : l.Nodup) (v : Val) :
    ((List.range l.length).filter (fun i => decide (l.getD i Val.null = v))).length
      = if v ∈ l then 1 else 0 := by
  induction l with
  | nil => simp
  | cons a t ih =>
    obtain ⟨ha, ht⟩ := List.nodup_cons.mp h
    rw [List.length_cons, List.range_succ_eq_map]
    rw [List.filter_cons]
    have hmap : (List.map Nat.succ (List.range t.length)).filter
        (fun i => decide ((a :: t).getD i Val.null = v))
        = List.map Nat.succ ((List.range t.length).filter
          (fun i => decide (t.getD i Val.null = v))) := by
      rw [List.filter_map]
      congr 1
    by_cases hv : a = v
    · subst hv
      rw [if_pos (by simp), hmap, List.length_cons, List.length_map, ih ht, if_neg ha,
        if_pos (List.mem_cons_self a t)]
    · rw [if_neg (by simp [hv]), hmap, List.length_map, ih ht]
      by_cases hvt : v ∈ t
      · rw [if_pos hvt, if_pos (List.mem_cons_of_mem a hvt)]
      · rw [if_neg hvt, if_neg ?_]
        intro hmem
        rcases List.mem_cons.mp hmem with heq | hmem2
        · exact hv heq.symm
        · exact hvt hmem2

theorem getD_map {α β : Type} {l : List α} {f : α → β} {i : ℕ} (hi : i < l.length)
    (d : β) (d2 : α) : (l.map f).getD i d = f (l.getD i d2) := by
  rw [List.getD_eq_getElem _ _ (by simpa using hi), List.getD_eq_getElem _ _ hi,
    List.getElem_map]

theorem customersOf_nodup (df : DataFrame) : (customersOf df).Nodup :=
  groupKeys_nodup df "CustomerId"

/-- C4: one row per (non-null) customer key, carrying that customer's
day-difference recency, distinct invoice count and summed line total. -/
theorem rfm_one_row_per_customer {a : Analyzer} {rows : List RFMRow}
    (h : rfm_analysis a = .ok rows) :
    (∀ v : Val, (rows.filter (fun r => decide (r.CustomerId = v))).length
        = if v ∈ customersOf a.sales_df then 1 else 0) ∧
    ∀ r ∈ rows,
      r.Recency = todayD a.sales_df - maxZ (custDates a.sales_df r.CustomerId) ∧
      r.Frequency = frequencyOf a.sales_df r.CustomerId ∧
      r.Monetary = monetaryOf a.sales_df r.CustomerId := by
  obtain ⟨rS, fS, mS, e1, e2, e3, hrows⟩ := rfm_ok h
  subst hrows
  constructor
  · intro v
    rw [((List.perm_insertionSort rfmLe _).filter _).length_eq]
    rw [List.filter_map, List.length_map]
    have hfi : (List.range (customersOf a.sales_df).length).filter
        ((fun r => decide (r.CustomerId = v)) ∘
          (rfmBase a.sales_df (customersOf a.sales_df) rS fS mS))
        = (List.range (customersOf a.sales_df).length).filter
          (fun i => decide ((customersOf a.sales_df).getD i Val.null = v)) := by
      apply List.filter_congr
      intro i _
      rfl
    rw [hfi, count_getD_nodup (customersOf_nodup a.sales_df) v]
  · intro r hr
    have hmem := (List.perm_insertionSort rfmLe _).subset hr
    obtain ⟨i, _, hreq⟩ := List.mem_map.mp hmem
    subst hreq
    exact ⟨rfl, rfl, rfl⟩

/-- Witness for C4: customer 2 of the three-customer instance has
exactly one row. -/
theorem rfm_one_row_per_customer_witness :
    (rfm_analysis wRfmAnalyzer).map
      (fun rows => (rows.filter (fun r => decide (r.CustomerId = Val.num 2))).length)
      = .ok 1 := by
  cases hE : rfm_analysis wRfmAnalyzer with
  | error e =>
    have hOk : (rfm_analysis wRfmAnalyzer).isOk = true := by with_unfolding_all decide
    rw [hE] at hOk
    simp [Except.isOk, Except.toBool] at hOk
  | ok rows =>
    simp only [Except.map, Except.ok.injEq]
    rw [(rfm_one_row_per_customer hE).1 (Val.num 2)]
    rw [if_pos (by with_unfolding_all decide)]

/-- C3: all scores lie in 1..5 with their sum in 3..15, the result is
sorted descending by `RFM_Score`, and customers with identical raw
Recency (resp. Frequency, Monetary) receive identical scores in that
dimension — on every input where `rfm_analysis` succeeds the scores
come from the value-based quintile cut, a fixed function of the raw
value. -/
theorem rfm_scores_bounds_sorted {a : Analyzer} {rows : List RFMRow}
    (h : rfm_analysis a = .ok rows) :
    (∀ r ∈ rows, 1 ≤ r.R_Score ∧ r.R_Score ≤ 5 ∧ 1 ≤ r.F_Score ∧ r.F_Score ≤ 5 ∧
      1 ≤ r.M_Score ∧ r.M_Score ≤ 5 ∧ 3 ≤ r.RFM_Score ∧ r.RFM_Score ≤ 15 ∧
      r.RFM_Score = r.R_Score + r.F_Score + r.M_Score) ∧
    List.Sorted rfmLe rows ∧
    (∀ r1 ∈ rows, ∀ r2 ∈ rows, r1.Recency = r2.Recency → r1.R_Score = r2.R_Score) ∧
    (∀ r1 ∈ rows, ∀ r2 ∈ rows, r1.Frequency = r2.Frequency → r1.F_Score = r2.F_Score) ∧
    (∀ r1 ∈ rows, ∀ r2 ∈ rows, r1.Monetary = r2.Monetary → r1.M_Score = r2.M_Score) := by
  obtain ⟨rS, fS, mS, e1, e2, e3, hrows⟩ := rfm_ok h
  obtain ⟨gR, hgR, hbR⟩ := safe_qcut_ok_val e1
  obtain ⟨gF, hgF, hbF⟩ := safe_qcut_ok_val e2
  obtain ⟨gM, hgM, hbM⟩ := safe_qcut_ok_val e3
  have hmemBase : ∀ r ∈ rows, ∃ i, i < (customersOf a.sales_df).length ∧
      r = rfmBase a.sales_df (customersOf a.sales_df) rS fS mS i := by
    intro r hr
    rw [hrows] at hr
    have hmem := (List.perm_insertionSort rfmLe _).subset hr
    obtain ⟨i, hi, hreq⟩ := List.mem_map.mp hmem
    exact ⟨i, List.mem_range.mp hi, hreq.symm⟩
  have hscR : ∀ k, k < (customersOf a.sales_df).length →
      rS.getD k 0 = gR ((recencyOf a.sales_df ((customersOf a.sales_df).getD k Val.null) : ℚ)) := by
    intro k hk
    rw [hgR, getD_map (by simpa using hk) 0 0, getD_map hk 0 Val.null]
  have hscF : ∀ k, k < (customersOf a.sales_df).length →
      fS.getD k 0 = gF ((frequencyOf a.sales_df ((customersOf a.sales_df).getD k Val.null) : ℚ)) := by
    intro k hk
    rw [hgF, getD_map (by simpa using hk) 0 0, getD_map hk 0 Val.null]
  have hscM : ∀ k, k < (customersOf a.sales_df).length →
      mS.getD k 0 = gM (monetaryOf a.sales_df ((customersOf a.sales_df).getD k Val.null)) := by
    intro k hk
    rw [hgM, getD_map (by simpa using hk) 0 0, getD_map hk 0 Val.null]
  have hmemR : ∀ k, k < (customersOf a.sales_df).length →
      ((recencyOf a.sales_df ((customersOf a.sales_df).getD k Val.null) : ℚ)) ∈
        (customersOf a.sales_df).map (fun c => (recencyOf a.sales_df c : ℚ)) := by
    intro k hk
    rw [List.getD_eq_getElem _ _ hk]
    exact List.mem_map_of_mem _ (List.getElem_mem hk)
  have hmemF : ∀ k, k < (customersOf a.sales_df).length →
      ((frequencyOf a.sales_df ((customersOf a.sales_df).getD k Val.null) : ℚ)) ∈
        (customersOf a.sales_df).map (fun c => (frequencyOf a.sales_df c : ℚ)) := by
    intro k hk
    rw [List.getD_eq_getElem _ _ hk]
    exact List.mem_map_of_mem _ (List.getElem_mem hk)
  have hmemM : ∀ k, k < (customersOf a.sales_df).length →
      (monetaryOf a.sales_df ((customersOf a.sales_df).getD k Val.null)) ∈
        (customersOf a.sales_df).map (fun c => monetaryOf a.sales_df c) := by
    intro k hk
    rw [List.getD_eq_getElem _ _ hk]
    exact List.mem_map_of_mem _ (List.getElem_mem hk)
  refine ⟨?_, ?_, ?_, ?_, ?_⟩
  · intro r hr
    obtain ⟨i, hi, hreq⟩ := hmemBase r hr
    subst hreq
    have h1 : 1 ≤ rS.getD i 0 ∧ rS.getD i 0 ≤ 5 := by
      rw [hscR i hi]
      exact hbR _ (hmemR i hi)
    have h2 : 1 ≤ fS.getD i 0 ∧ fS.getD i 0 ≤ 5 := by
      rw [hscF i hi]
      exact hbF _ (hmemF i hi)
    have h3 : 1 ≤ mS.getD i 0 ∧ mS.getD i 0 ≤ 5 := by
      rw [hscM i hi]
      exact hbM _ (hmemM i hi)
    refine ⟨h1.1, h1.2, h2.1, h2.2, h3.1, h3.2, ?_, ?_, rfl⟩
    · show 3 ≤ rS.getD i 0 + fS.getD i 0 + mS.getD i 0
      omega
    · show rS.getD i 0 + fS.getD i 0 + mS.getD i 0 ≤ 15
      omega
  · rw [hrows]
    exact List.sorted_insertionSort rfmLe _
  · intro r1 h1 r2 h2 heq
    obtain ⟨i, hi, hreq1⟩ := hmemBase r1 h1
    obtain ⟨j, hj, hreq2⟩ := hmemBase r2 h2
    have hRec1 : r1.Recency = recencyOf a.sales_df ((customersOf a.sales_df).getD i Val.null) := by
      rw [hreq1]; try rfl
    have hRec2 : r2.Recency = recencyOf a.sales_df ((customersOf a.sales_df).getD j Val.null) := by
      rw [hreq2]; try rfl
    have hS1 : r1.R_Score = rS.getD i 0 := by rw [hreq1]; try rfl
    have hS2 : r2.R_Score = rS.getD j 0 := by rw [hreq2]; try rfl
    rw [hS1, hS2, hscR i hi, hscR j hj, ← hRec1, ← hRec2, heq]
  · intro r1 h1 r2 h2 heq
    obtain ⟨i, hi, hreq1⟩ := hmemBase r1 h1
    obtain ⟨j, hj, hreq2⟩ := hmemBase r2 h2
    have hRec1 : r1.Frequency = frequencyOf a.sales_df ((customersOf a.sales_df).getD i Val.null) := by
      rw [hreq1]; try rfl
    have hRec2 : r2.Frequency = frequencyOf a.sales_df ((customersOf a.sales_df).getD j Val.null) := by
      rw [hreq2]; try rfl
    have hS1 : r1.F_Score = fS.getD i 0 := by rw [hreq1]; try rfl
    have hS2 : r2.F_Score = fS.getD j 0 := by rw [hreq2]; try rfl
    rw [hS1, hS2, hscF i hi, hscF j hj, ← hRec1, ← hRec2, heq]
  · intro r1 h1 r2 h2 heq
    obtain ⟨i, hi, hreq1⟩ := hmemBase r1 h1
    obtain ⟨j, hj, hreq2⟩ := hmemBase r2 h2
    have hRec1 : r1.Monetary = monetaryOf a.sales_df ((customersOf a.sales_df).getD i Val.null) := by
      rw [hreq1]; try rfl
    have hRec2 : r2.Monetary = monetaryOf a.sales_df ((customersOf a.sales_df).getD j Val.null) := by
      rw [hreq2]; try rfl
    have hS1 : r1.M_Score = mS.getD i 0 := by rw [hreq1]; try rfl
    have hS2 : r2.M_Score = mS.getD j 0 := by rw [hreq2]; try rfl
    rw [hS1, hS2, hscM i hi, hscM j hj, ← hRec1, ← hRec2, heq]

/-- Witness for C3: the three-customer instance yields a
descending-by-`RFM_Score` result. -/
theorem rfm_scores_bounds_sorted_witness :
    (rfm_analysis wRfmAnalyzer).map (fun rows => decide (List.Sorted rfmLe rows))
      = .ok true := by
  cases hE : rfm_analysis wRfmAnalyzer with
  | error e =>
    have hOk : (rfm_analysis wRfmAnalyzer).isOk = true := by with_unfolding_all decide
    rw [hE] at hOk
    simp [Except.isOk, Except.toBool] at hOk
  | ok rows =>
    simp only [Except.map, Except.ok.injEq, decide_eq_true_eq]
    exact (rfm_scores_bounds_sorted hE).2.1

theorem take_set_of_le {α : Type} (l : List α) (i n : ℕ) (x : α) (h : n ≤ i) :
    (l.set i x).take n = l.take n := by
  induction l generalizing i n with
  | nil => simp
  | cons a t ih =>
    cases i with
    | zero =>
      have : n = 0 := by omega
      simp [this]
    | succ i2 =>
      cases n with
      | zero => simp
      | succ n2 =>
        simp only [List.set_cons_succ, List.take_succ_cons]
        rw [ih i2 n2 (by omega)]

theorem extends_refl (s : Store) : StoreExtends s s := ⟨le_refl _, List.take_length s⟩

theorem extends_append (s t : Store) : StoreExtends s (s ++ t) :=
  ⟨by simp, List.take_left s t⟩

theorem set_append_right2 {α : Type} (s t : List α) (k : ℕ) (x : α) :
    (s ++ t).set (s.length + k) x = s ++ t.set k x := by
  rw [List.set_append, if_neg (by omega), Nat.add_sub_cancel_left]

theorem set_append_len {α : Type} (s t : List α) (x : α) :
    (s ++ t).set s.length x = s ++ t.set 0 x :=
  set_append_right2 s t 0 x

theorem revenue_by_monthS_extends (s : Store) (r : ℕ) :
    StoreExtends s (revenue_by_monthS s r).1 := by
  simp only [revenue_by_monthS, salloc, swrite, sread]
  simp only [List.append_assoc, List.length_append, List.length_set, List.length_cons,
    List.length_nil, set_append_right2, set_append_len]
  exact extends_append _ _

theorem sales_line_itemsS_extends (s : Store) (tbl : String → Option ℕ) :
    StoreExtends s (sales_line_itemsS s tbl).1 := by
  simp only [sales_line_itemsS, salloc, swrite, sread]
  repeat' split
  all_goals simp only [List.append_assoc, List.length_append, List.length_set,
    List.length_cons, List.length_nil, set_append_right2, set_append_len]
  all_goals first
    | exact extends_refl _
    | exact extends_append _ _

theorem catalogS_extends (s : Store) (tbl : String → Option ℕ) :
    StoreExtends s (catalogS s tbl).1 := by
  simp only [catalogS, salloc, swrite, sread]
  repeat' split
  all_goals simp only [List.append_assoc, List.length_append, List.length_set,
    List.length_cons, List.length_nil, set_append_right2, set_append_len]
  all_goals first
    | exact extends_refl _
    | exact extends_append _ _

theorem customers_dimS_extends (s : Store) (tbl : String → Option ℕ) :
    StoreExtends s (customers_dimS s tbl).1 := by
  simp only [customers_dimS, salloc, swrite, sread]
  repeat' split
  all_goals simp only [List.append_assoc, List.length_append, List.length_set,
    List.length_cons, List.length_nil, set_append_right2, set_append_len]
  all_goals first
    | exact extends_refl _
    | exact extends_append _ _

theorem analyzerInitS_extends (s : Store) (r : ℕ) (cr : Option ℕ) :
    StoreExtends s (analyzerInitS s r cr).1 := by
  simp only [analyzerInitS, salloc, swrite, sread]
  repeat' split
  all_goals simp only [List.append_assoc, List.length_append, List.length_set,
    List.length_cons, List.length_nil, set_append_right2, set_append_len]
  all_goals first
    | exact extends_refl _
    | exact extends_append _ _

theorem topByRevenueS_extends (s : Store) (r n : ℕ) (col : String) :
    StoreExtends s (topByRevenueS s r col n).1 := by
  simp only [topByRevenueS, salloc, swrite, sread]
  repeat' split
  all_goals simp only [List.append_assoc, List.length_append, List.length_set,
    List.length_cons, List.length_nil, set_append_right2, set_append_len]
  all_goals first
    | exact extends_refl _
    | exact extends_append _ _

theorem customer_lifetime_valueS_extends (s : Store) (r n : ℕ) :
    StoreExtends s (customer_lifetime_valueS s r n).1 := by
  simp only [customer_lifetime_valueS, salloc, swrite, sread]
  repeat' split
  all_goals simp only [List.append_assoc, List.length_append, List.length_set,
    List.length_cons, List.length_nil, set_append_right2, set_append_len]
  all_goals first
    | exact extends_refl _
    | exact extends_append _ _

theorem rfm_analysisS_extends (s : Store) (r : ℕ) :
    StoreExtends s (rfm_analysisS s r).1 := by
  simp only [rfm_analysisS, salloc, swrite, sread]
  repeat' split
  all_goals simp only [List.append_assoc, List.length_append, List.length_set,
    List.length_cons, List.length_nil, set_append_right2, set_append_len]
  all_goals first
    | exact extends_refl _
    | exact extends_append _ _

theorem top_words_in_track_titlesS_extends (s : Store) (cr : Option ℕ) (n : ℕ)
    (sw : Option (List String)) :
    StoreExtends s (top_words_in_track_titlesS s cr n sw).1 := by
  simp only [top_words_in_track_titlesS, salloc, swrite, sread]
  repeat' split
  all_goals simp only [List.append_assoc, List.length_append, List.length_set,
    List.length_cons, List.length_nil, set_append_right2, set_append_len]
  all_goals first
    | exact extends_refl _
    | exact extends_append _ _

theorem duration_statsS_extends (s : Store) (cr : Option ℕ) :
    StoreExtends s (duration_statsS s cr).1 := by
  simp only [duration_statsS, salloc, swrite, sread]
  repeat' split
  all_goals simp only [List.append_assoc, List.length_append, List.length_set,
    List.length_cons, List.length_nil, set_append_right2, set_append_len]
  all_goals first
    | exact extends_refl _
    | exact extends_append _ _

/-- C8: no Modeler or Analyzer operation mutates a pre-existing frame.
Every store slot that exists before a call — the caller's raw tables,
the caller-supplied sales/catalog frames, and the frames an analyzer
holds from construction — is an unchanged prefix of the store after
the call; each operation only reads old slots, allocates fresh ones
for its copies and results, and writes only to freshly allocated
slots. -/
theorem no_operation_mutates_existing_frames
    (s : Store) (tbl : String → Option ℕ) (salesRef : ℕ) (catalogRef : Option ℕ)
    (col : String) (n : ℕ) (sw : Option (List String)) :
    StoreExtends s (sales_line_itemsS s tbl).1 ∧
    StoreExtends s (catalogS s tbl).1 ∧
    StoreExtends s (customers_dimS s tbl).1 ∧
    StoreExtends s (analyzerInitS s salesRef catalogRef).1 ∧
    StoreExtends s (revenue_by_monthS s salesRef).1 ∧
    StoreExtends s (topByRevenueS s salesRef col n).1 ∧
    StoreExtends s (customer_lifetime_valueS s salesRef n).1 ∧
    StoreExtends s (rfm_analysisS s salesRef).1 ∧
    StoreExtends s (top_words_in_track_titlesS s catalogRef n sw).1 ∧
    StoreExtends s (duration_statsS s catalogRef).1 :=
  ⟨sales_line_itemsS_extends s tbl, catalogS_extends s tbl, customers_dimS_extends s tbl,
   analyzerInitS_extends s salesRef catalogRef, revenue_by_monthS_extends s salesRef,
   topByRevenueS_extends s salesRef n col, customer_lifetime_valueS_extends s salesRef n,
   rfm_analysisS_extends s salesRef, top_words_in_track_titlesS_extends s catalogRef n sw,
   duration_statsS_extends s catalogRef⟩
